import Mathlib

/-!
# Lunaris future / promise: a sequential model of `future.h` and `future.ipp`

The tunnels (`detail_future::_tunnel<T>` and `detail_future::_tunnel<void>`)
live in a heap addressed by natural numbers, one address space per tunnel
type; a `future` handle is the address held by its `m_next` shared pointer.
The `std::function` stored in `m_get` is defunctionalised: there is one
constructor for each lambda written in the two source files.

Every operation runs as one atomic section (the body executed under
`m_safety`), with no other thread interleaving.  The polling loop of `wait`
is bounded by a number of polls; the nested `set` calls of a redirect chain
are bounded by a call depth.
-/

namespace Lunaris

/-- The exception type thrown by the library: `std::runtime_error(what)`. -/
inductive Error where
  | runtime_error (what : String)
  deriving DecidableEq, Repr

/-- The one exception the two files throw. -/
def redir_error : Error :=
  Error.runtime_error "future get_future() was already called"

/-- What the payload type `T` must provide: `T{}` (the initial `m_store`) and
the state an object is left in after `std::move` took its contents. -/
class Payload (T : Type) where
  init : T
  moved_from : T → T

instance : Payload Nat := ⟨0, id⟩
instance : Payload Int := ⟨0, id⟩

namespace detail_future

/-- The closures stored in `_tunnel<T>::m_get` (`std::function<void(T)>`). -/
inductive Getter (T : Type) where
  /-- future.h:17 `[this](T a) {m_store = std::move(a);}` -/
  | store : Getter T
  /-- future.ipp:78 `[next_data](T val) { next_data->set(std::move(val)); }` -/
  | forward (next_data : Nat) : Getter T
  /-- future.ipp:168 `[mnxt, func](Q got) { mnxt->set(func(got)); }` -/
  | then_val (mnxt : Nat) (func : T → T) : Getter T
  /-- future.ipp:179 `[mnxt, func](Q got) { func(got); mnxt->set(); }` -/
  | then_void (mnxt : Nat) (func : T → Unit) : Getter T

/-- The closures stored in `_tunnel<void>::m_get` (`std::function<void()>`). -/
inductive VoidGetter (T : Type) where
  /-- future.h:31 `[]() {}` -/
  | nop : VoidGetter T
  /-- future.ipp:89 `[next_data]() { next_data->set(); }` -/
  | forward (next_data : Nat) : VoidGetter T
  /-- future.ipp:190 `[mnxt, func]() { mnxt->set(func()); }` -/
  | then_val (mnxt : Nat) (func : Unit → T) : VoidGetter T
  /-- future.ipp:201 `[mnxt, func]() { func(); mnxt->set(); }` -/
  | then_void (mnxt : Nat) (func : Unit → Unit) : VoidGetter T

/-- The struct `_tunnel<T>` of future.h:15 (mutex and condition variable are not data). -/
structure _tunnel (T : Type) where
  m_store : T
  m_get : Getter T
  m_redir_enabled : Bool
  m_store_set : Bool

/-- The struct `_tunnel<void>` of future.h:30. -/
structure _tunnel_void (T : Type) where
  m_get : VoidGetter T
  m_redir_enabled : Bool
  m_store_set : Bool

/-- A default-constructed `_tunnel<T>` (the member initialisers of future.h:16-21). -/
def _tunnel.fresh {T : Type} [Payload T] : _tunnel T :=
  { m_store := Payload.init, m_get := Getter.store,
    m_redir_enabled := false, m_store_set := false }

/-- A default-constructed `_tunnel<void>` (future.h:31-35). -/
def _tunnel_void.fresh {T : Type} : _tunnel_void T :=
  { m_get := VoidGetter.nop, m_redir_enabled := false, m_store_set := false }

/-- One invocation of some tunnel's `m_get`, as recorded in the trace. -/
inductive Call (T : Type) where
  | val (self : Nat) (arg : T) : Call T
  | void (self : Nat) : Call T

end detail_future

open detail_future

/-- The heap of tunnels: `vals[a]` is the `_tunnel<T>` at address `a`,
`voids[a]` the `_tunnel<void>` at address `a`; `calls` is the trace of `m_get`
invocations, oldest first. -/
structure Heap (T : Type) where
  vals : List (_tunnel T)
  voids : List (_tunnel_void T)
  calls : List (Call T)

/-- The heap with no tunnel. -/
def Heap.empty {T : Type} : Heap T := { vals := [], voids := [], calls := [] }

/-- The outcome of running an operation: it returned `a` leaving heap `h`, it
threw `e` leaving heap `h`, it has not returned within its bound (`hang`), or
it dereferenced an address that holds no tunnel (`fault`). -/
inductive Result (α : Type) (T : Type) where
  | ok (a : α) (h : Heap T) : Result α T
  | throw (e : Error) (h : Heap T) : Result α T
  | hang : Result α T
  | fault : Result α T

namespace detail_future

/-- The statement `m_store_set = true;` on the `_tunnel<T>` at `self`. -/
def mark_val {T : Type} (h : Heap T) (self : Nat) : Result Unit T :=
  match h.vals[self]? with
  | none => Result.fault
  | some c => Result.ok () { h with vals := h.vals.set self { c with m_store_set := true } }

/-- The statement `m_store_set = true;` on the `_tunnel<void>` at `self`. -/
def mark_void {T : Type} (h : Heap T) (self : Nat) : Result Unit T :=
  match h.voids[self]? with
  | none => Result.fault
  | some c => Result.ok () { h with voids := h.voids.set self { c with m_store_set := true } }

mutual
/-- future.ipp:9-15 `_tunnel<T>::set(T val)`: `m_get(std::move(val)); m_store_set = true;`.
The first argument bounds the depth of nested `set` calls. -/
def _tunnel.set {T : Type} : Nat → Heap T → Nat → T → Result Unit T
  | 0, _, _, _ => Result.hang
  | depth + 1, h, self, val =>
    match h.vals[self]? with
    | none => Result.fault
    | some c =>
      let h1 : Heap T := { h with calls := h.calls ++ [Call.val self val] }
      let r : Result Unit T :=
        match c.m_get with
        | Getter.store => Result.ok () { h1 with vals := h1.vals.set self { c with m_store := val } }
        | Getter.forward next_data => _tunnel.set depth h1 next_data val
        | Getter.then_val mnxt func => _tunnel.set depth h1 mnxt (func val)
        | Getter.then_void mnxt func =>
          let _done : Unit := func val
          _tunnel_void.set depth h1 mnxt
      match r with
      | Result.ok _ h2 => mark_val h2 self
      | other => other
/-- future.ipp:41-46 `_tunnel<void>::set()`: `m_get(); m_store_set = true;`. -/
def _tunnel_void.set {T : Type} : Nat → Heap T → Nat → Result Unit T
  | 0, _, _ => Result.hang
  | depth + 1, h, self =>
    match h.voids[self]? with
    | none => Result.fault
    | some c =>
      let h1 : Heap T := { h with calls := h.calls ++ [Call.void self] }
      let r : Result Unit T :=
        match c.m_get with
        | VoidGetter.nop => Result.ok () h1
        | VoidGetter.forward next_data => _tunnel_void.set depth h1 next_data
        | VoidGetter.then_val mnxt func => _tunnel.set depth h1 mnxt (func ())
        | VoidGetter.then_void mnxt func =>
          let _done : Unit := func ()
          _tunnel_void.set depth h1 mnxt
      match r with
      | Result.ok _ h2 => mark_void h2 self
      | other => other
end

/-- future.ipp:17-22 `_tunnel<T>::redirect_nolock(f)`: `m_get = f; m_redir_enabled = true;`. -/
def _tunnel.redirect_nolock {T : Type} (c : _tunnel T) (f : Getter T) : _tunnel T :=
  { c with m_get := f, m_redir_enabled := true }

/-- future.ipp:48-52 `_tunnel<void>::redirect_nolock(f)`. -/
def _tunnel_void.redirect_nolock {T : Type} (c : _tunnel_void T) (f : VoidGetter T) :
    _tunnel_void T :=
  { c with m_get := f, m_redir_enabled := true }

/-- future.ipp:24-30 `_tunnel<T>::wait()`:
`while (!m_cond.wait_for(l, 100ms, [this]{ return m_store_set || m_redir_enabled; }));`
then `if (m_redir_enabled) throw ...`.  The first argument bounds the number of
iterations of the loop; each `wait_for` returns the predicate's value. -/
def _tunnel.wait {T : Type} : Nat → Heap T → Nat → Result Unit T
  | 0, _, _ => Result.hang
  | polls + 1, h, self =>
    match h.vals[self]? with
    | none => Result.fault
    | some c =>
      if c.m_store_set || c.m_redir_enabled then
        if c.m_redir_enabled then Result.throw redir_error h else Result.ok () h
      else _tunnel.wait polls h self

/-- future.ipp:54-59 `_tunnel<void>::wait()` (the same loop, polling every 50ms). -/
def _tunnel_void.wait {T : Type} : Nat → Heap T → Nat → Result Unit T
  | 0, _, _ => Result.hang
  | polls + 1, h, self =>
    match h.voids[self]? with
    | none => Result.fault
    | some c =>
      if c.m_store_set || c.m_redir_enabled then
        if c.m_redir_enabled then Result.throw redir_error h else Result.ok () h
      else _tunnel_void.wait polls h self

/-- The value of `m_cond.wait_for(l, dt, pred)` when nothing is delivered during
the call: the predicate's value, at once if it holds and after `dt` otherwise. -/
def cond_wait_for (_dt : Int) (pred : Bool) : Bool := pred

/-- future.ipp:32-39 `_tunnel<T>::wait_for(dt)`: one `m_cond.wait_for(l, dt, pred)`
whose result is discarded, then `if (m_redir_enabled) throw ...`. -/
def _tunnel.wait_for {T : Type} (h : Heap T) (self : Nat) (dt : Int) : Result Unit T :=
  match h.vals[self]? with
  | none => Result.fault
  | some c =>
    let _woke : Bool := cond_wait_for dt (c.m_store_set || c.m_redir_enabled)
    if c.m_redir_enabled then Result.throw redir_error h else Result.ok () h

/-- future.ipp:61-67 `_tunnel<void>::wait_for(dt)`. -/
def _tunnel_void.wait_for {T : Type} (h : Heap T) (self : Nat) (dt : Int) : Result Unit T :=
  match h.voids[self]? with
  | none => Result.fault
  | some c =>
    let _woke : Bool := cond_wait_for dt (c.m_store_set || c.m_redir_enabled)
    if c.m_redir_enabled then Result.throw redir_error h else Result.ok () h

end detail_future

/-- A `future<T>` (or `promise<T>`) for a payload type: the address in `m_next`. -/
structure future where
  m_next : Nat
  deriving DecidableEq, Repr

/-- A `future<void>` (or `promise<void>`): the address in `m_next`. -/
structure future_void where
  m_next : Nat
  deriving DecidableEq, Repr

/-- future.h:173 `class promise : protected future<T>`: the same representation. -/
abbrev promise := future

/-- The class `promise<void>`. -/
abbrev promise_void := future_void

/-- future.h:49,83 the default constructor: `m_next = std::make_shared<_tunnel<T>>()`. -/
def future.new {T : Type} [Payload T] (h : Heap T) : future × Heap T :=
  ({ m_next := h.vals.length }, { h with vals := h.vals ++ [_tunnel.fresh] })

/-- The default constructor of `future<void>`. -/
def future_void.new {T : Type} (h : Heap T) : future_void × Heap T :=
  ({ m_next := h.voids.length }, { h with voids := h.voids ++ [_tunnel_void.fresh] })

/-- future.ipp:71-80 `future<T>::get_future()`, `T` not void. -/
def future.get_future {T : Type} [Payload T] (h : Heap T) (self : future) : Result future T :=
  match h.vals[self.m_next]? with
  | none => Result.fault
  | some c =>
    if c.m_redir_enabled then Result.throw redir_error h
    else
      let (next, h1) := future.new h
      Result.ok next { h1 with
        vals := h1.vals.set self.m_next (c.redirect_nolock (Getter.forward next.m_next)) }

/-- future.ipp:82-91 `future<void>::get_future()`. -/
def future_void.get_future {T : Type} (h : Heap T) (self : future_void) :
    Result future_void T :=
  match h.voids[self.m_next]? with
  | none => Result.fault
  | some c =>
    if c.m_redir_enabled then Result.throw redir_error h
    else
      let (next, h1) := future_void.new h
      Result.ok next { h1 with
        voids := h1.voids.set self.m_next (c.redirect_nolock (VoidGetter.forward next.m_next)) }

/-- future.ipp:93-98 `future<T>::set_value(Q val)`: `m_next->set(std::move(val))`. -/
def future.set_value {T : Type} (depth : Nat) (h : Heap T) (self : future) (val : T) :
    Result Unit T :=
  _tunnel.set depth h self.m_next val

/-- future.ipp:100-105 `future<void>::set_value()`: `m_next->set()`. -/
def future_void.set_value {T : Type} (depth : Nat) (h : Heap T) (self : future_void) :
    Result Unit T :=
  _tunnel_void.set depth h self.m_next

/-- future.ipp:114-120 `future<T>::get()`: `m_next->wait(); return m_next->m_store;`. -/
def future.get {T : Type} (polls : Nat) (h : Heap T) (self : future) : Result T T :=
  match _tunnel.wait polls h self.m_next with
  | Result.ok _ h1 =>
    match h1.vals[self.m_next]? with
    | none => Result.fault
    | some c => Result.ok c.m_store h1
  | Result.throw e h1 => Result.throw e h1
  | Result.hang => Result.hang
  | Result.fault => Result.fault

/-- future.ipp:122-127 `future<void>::get()`: `m_next->wait();`. -/
def future_void.get {T : Type} (polls : Nat) (h : Heap T) (self : future_void) :
    Result Unit T :=
  _tunnel_void.wait polls h self.m_next

/-- future.ipp:129-134 `future<T>::wait()`: `m_next->wait(); return m_next->m_store_set;`. -/
def future.wait {T : Type} (polls : Nat) (h : Heap T) (self : future) : Result Bool T :=
  match _tunnel.wait polls h self.m_next with
  | Result.ok _ h1 =>
    match h1.vals[self.m_next]? with
    | none => Result.fault
    | some c => Result.ok c.m_store_set h1
  | Result.throw e h1 => Result.throw e h1
  | Result.hang => Result.hang
  | Result.fault => Result.fault

/-- The same `future<T>::wait()` instantiated at `T = void`. -/
def future_void.wait {T : Type} (polls : Nat) (h : Heap T) (self : future_void) :
    Result Bool T :=
  match _tunnel_void.wait polls h self.m_next with
  | Result.ok _ h1 =>
    match h1.voids[self.m_next]? with
    | none => Result.fault
    | some c => Result.ok c.m_store_set h1
  | Result.throw e h1 => Result.throw e h1
  | Result.hang => Result.hang
  | Result.fault => Result.fault

/-- future.ipp:136-142 `future<T>::wait(dt)`:
`if (dt.count() > 0) m_next->wait_for(dt); return m_next->m_store_set;`. -/
def future.wait_dt {T : Type} (h : Heap T) (self : future) (dt : Int) : Result Bool T :=
  let r : Result Unit T := if dt > 0 then _tunnel.wait_for h self.m_next dt else Result.ok () h
  match r with
  | Result.ok _ h1 =>
    match h1.vals[self.m_next]? with
    | none => Result.fault
    | some c => Result.ok c.m_store_set h1
  | Result.throw e h1 => Result.throw e h1
  | Result.hang => Result.hang
  | Result.fault => Result.fault

/-- The same `future<T>::wait(dt)` instantiated at `T = void`. -/
def future_void.wait_dt {T : Type} (h : Heap T) (self : future_void) (dt : Int) :
    Result Bool T :=
  let r : Result Unit T :=
    if dt > 0 then _tunnel_void.wait_for h self.m_next dt else Result.ok () h
  match r with
  | Result.ok _ h1 =>
    match h1.voids[self.m_next]? with
    | none => Result.fault
    | some c => Result.ok c.m_store_set h1
  | Result.throw e h1 => Result.throw e h1
  | Result.hang => Result.hang
  | Result.fault => Result.fault

/-- future.ipp:144-151 `future<T>::get_take()`:
`m_next->wait(); m_next->m_store_set = false; return std::move(m_next->m_store);`. -/
def future.get_take {T : Type} [Payload T] (polls : Nat) (h : Heap T) (self : future) :
    Result T T :=
  match _tunnel.wait polls h self.m_next with
  | Result.ok _ h1 =>
    match h1.vals[self.m_next]? with
    | none => Result.fault
    | some c =>
      Result.ok c.m_store { h1 with
        vals := h1.vals.set self.m_next
          { c with m_store_set := false, m_store := Payload.moved_from c.m_store } }
  | Result.throw e h1 => Result.throw e h1
  | Result.hang => Result.hang
  | Result.fault => Result.fault

/-- future.ipp:153-159 `future<void>::get_take()`:
`m_next->wait(); m_next->m_store_set = false;`. -/
def future_void.get_take {T : Type} (polls : Nat) (h : Heap T) (self : future_void) :
    Result Unit T :=
  match _tunnel_void.wait polls h self.m_next with
  | Result.ok _ h1 =>
    match h1.voids[self.m_next]? with
    | none => Result.fault
    | some c =>
      Result.ok () { h1 with voids := h1.voids.set self.m_next { c with m_store_set := false } }
  | Result.throw e h1 => Result.throw e h1
  | Result.hang => Result.hang
  | Result.fault => Result.fault

/-- future.ipp:161-170 `future<T>::then(func)`, `Q` not void and `Res` not void:
`future<Res> nxt;` then `m_next->redirect_nolock(...)`. -/
def future.then_val {T : Type} [Payload T] (h : Heap T) (self : future) (func : T → T) :
    Result future T :=
  let (nxt, h1) := future.new h
  match h1.vals[self.m_next]? with
  | none => Result.fault
  | some c =>
    Result.ok nxt { h1 with
      vals := h1.vals.set self.m_next (c.redirect_nolock (Getter.then_val nxt.m_next func)) }

/-- future.ipp:172-181 `future<T>::then(func)`, `Q` not void and `Res` void. -/
def future.then_void {T : Type} (h : Heap T) (self : future) (func : T → Unit) :
    Result future_void T :=
  let (nxt, h1) := future_void.new h
  match h1.vals[self.m_next]? with
  | none => Result.fault
  | some c =>
    Result.ok nxt { h1 with
      vals := h1.vals.set self.m_next (c.redirect_nolock (Getter.then_void nxt.m_next func)) }

/-- future.ipp:183-192 `future<void>::then(func)`, `Res` not void. -/
def future_void.then_val {T : Type} [Payload T] (h : Heap T) (self : future_void)
    (func : Unit → T) : Result future T :=
  let (nxt, h1) := future.new h
  match h1.voids[self.m_next]? with
  | none => Result.fault
  | some c =>
    Result.ok nxt { h1 with
      voids := h1.voids.set self.m_next
        (c.redirect_nolock (VoidGetter.then_val nxt.m_next func)) }

/-- future.ipp:194-203 `future<void>::then(func)`, `Res` void. -/
def future_void.then_void {T : Type} (h : Heap T) (self : future_void)
    (func : Unit → Unit) : Result future_void T :=
  let (nxt, h1) := future_void.new h
  match h1.voids[self.m_next]? with
  | none => Result.fault
  | some c =>
    Result.ok nxt { h1 with
      voids := h1.voids.set self.m_next
        (c.redirect_nolock (VoidGetter.then_void nxt.m_next func)) }

/-- future.ipp:205-212 `make_empty_future(const T& v)`:
`promise<T> _p; auto _f = _p.get_future(); _p.set_value(v); return _f;`. -/
def make_empty_future {T : Type} [Payload T] (depth : Nat) (h : Heap T) (v : T) :
    Result future T :=
  let (_p, h1) := future.new h
  match future.get_future h1 _p with
  | Result.ok _f h2 =>
    match future.set_value depth h2 _p v with
    | Result.ok _ h3 => Result.ok _f h3
    | Result.throw e h3 => Result.throw e h3
    | Result.hang => Result.hang
    | Result.fault => Result.fault
  | Result.throw e h2 => Result.throw e h2
  | Result.hang => Result.hang
  | Result.fault => Result.fault

/-- future.ipp:214-221 `make_empty_future<void>()`. -/
def make_empty_future_void {T : Type} (depth : Nat) (h : Heap T) : Result future_void T :=
  let (_p, h1) := future_void.new h
  match future_void.get_future h1 _p with
  | Result.ok _f h2 =>
    match future_void.set_value depth h2 _p with
    | Result.ok _ h3 => Result.ok _f h3
    | Result.throw e h3 => Result.throw e h3
    | Result.hang => Result.hang
    | Result.fault => Result.fault
  | Result.throw e h2 => Result.throw e h2
  | Result.hang => Result.hang
  | Result.fault => Result.fault

/-- The call sequence `F.then(f1).then(f2)...then(fn)`: each `then` (future.ipp:161-170)
is called on the future returned by the previous one; the result is the last future. -/
def future.then_all {T : Type} [Payload T] :
    List (T → T) → Heap T → future → Result future T
  | [], h, self => Result.ok self h
  | f :: fs, h, self =>
    match future.then_val h self f with
    | Result.ok nxt h1 => future.then_all fs h1 nxt
    | Result.throw e h1 => Result.throw e h1
    | Result.hang => Result.hang
    | Result.fault => Result.fault

/-- The tunnels of a chain built by `then(f1)...then(fn)` whose first tunnel is at
address `base`: tunnel `i` redirects through `fi` into tunnel `i + 1`, the last one is
default-constructed. -/
def chain_cells {T : Type} [Payload T] : List (T → T) → Nat → List (_tunnel T)
  | [], _ => [_tunnel.fresh]
  | f :: fs, base =>
    { m_store := Payload.init, m_get := Getter.then_val (base + 1) f,
      m_redir_enabled := true, m_store_set := false } :: chain_cells fs (base + 1)

/-- The tunnels of the same chain once `v` has gone through it: every tunnel is marked
set and the last one stores the value produced by the last function. -/
def chain_cells_set {T : Type} [Payload T] : List (T → T) → Nat → T → List (_tunnel T)
  | [], _, v =>
    [{ m_store := v, m_get := Getter.store, m_redir_enabled := false, m_store_set := true }]
  | f :: fs, base, v =>
    { m_store := Payload.init, m_get := Getter.then_val (base + 1) f,
      m_redir_enabled := true, m_store_set := true } :: chain_cells_set fs (base + 1) (f v)

/-- The `m_get` invocations made when `v` goes through the chain: tunnel `base` is
invoked with `v`, the next one with `f1 v`, and so on down to the last tunnel. -/
def chain_calls {T : Type} : List (T → T) → Nat → T → List (Call T)
  | [], base, v => [Call.val base v]
  | f :: fs, base, v => Call.val base v :: chain_calls fs (base + 1) (f v)

/-- The heap an operation leaves behind when it returns or throws; `none` when it
has not returned. -/
def Result.final {α T : Type} : Result α T → Option (Heap T)
  | Result.ok _ h => some h
  | Result.throw _ h => some h
  | Result.hang => none
  | Result.fault => none

/-- The receiver of one `set` call: the `_tunnel<T>` at `a` with the value passed, or the
`_tunnel<void>` at `a`. -/
inductive Target (T : Type) where
  | val (a : Nat) (v : T) : Target T
  | void (a : Nat) : Target T

/-- The trace entry written when `m_get` of the target is invoked. -/
def Target.call {T : Type} : Target T → Call T
  | Target.val a v => Call.val a v
  | Target.void a => Call.void a

/-- The tunnel a trace entry is about: `Sum.inl a` for the `_tunnel<T>` at `a`,
`Sum.inr a` for the `_tunnel<void>` at `a`. -/
def detail_future.Call.node {T : Type} : Call T → Nat ⊕ Nat
  | Call.val a _ => Sum.inl a
  | Call.void a => Sum.inr a

/-- What the body of `m_get` does: it finishes in the tunnel itself (`stop`, with the
heap it leaves) or it calls `set` on another tunnel (`next`). -/
inductive Hop (T : Type) where
  | stop (h : Heap T) : Hop T
  | next (t : Target T) : Hop T

/-- The body of the `m_get` of the target, read off the closure stored in its tunnel
(future.h:17,31 and future.ipp:78,89,168,179,190,201); `none` if no tunnel is there. -/
def hop {T : Type} (h1 : Heap T) : Target T → Option (Hop T)
  | Target.val a v =>
    match h1.vals[a]? with
    | none => none
    | some c =>
      match c.m_get with
      | Getter.store => some (Hop.stop { h1 with vals := h1.vals.set a { c with m_store := v } })
      | Getter.forward next_data => some (Hop.next (Target.val next_data v))
      | Getter.then_val mnxt func => some (Hop.next (Target.val mnxt (func v)))
      | Getter.then_void mnxt _ => some (Hop.next (Target.void mnxt))
  | Target.void a =>
    match h1.voids[a]? with
    | none => none
    | some c =>
      match c.m_get with
      | VoidGetter.nop => some (Hop.stop h1)
      | VoidGetter.forward next_data => some (Hop.next (Target.void next_data))
      | VoidGetter.then_val mnxt func => some (Hop.next (Target.val mnxt (func ())))
      | VoidGetter.then_void mnxt _ => some (Hop.next (Target.void mnxt))

/-- The statement `m_store_set = true;` on the tunnel of the target. -/
def mark {T : Type} (h : Heap T) : Target T → Result Unit T
  | Target.val a _ => mark_val h a
  | Target.void a => mark_void h a

/-- Both `set` functions (future.ipp:9-15 and 41-46) as one function on targets; it is
proved equal to `_tunnel.set` and `_tunnel_void.set` in `set_eq_deliver`. -/
def deliver {T : Type} : Nat → Heap T → Target T → Result Unit T
  | 0, _, _ => Result.hang
  | depth + 1, h, t =>
    let h1 : Heap T := { h with calls := h.calls ++ [t.call] }
    match hop h1 t with
    | none => Result.fault
    | some (Hop.stop h2) => mark h2 t
    | some (Hop.next t1) =>
      match deliver depth h1 t1 with
      | Result.ok _ h2 => mark h2 t
      | other => other

/-- The second heap has every tunnel of the first, with the same `m_get` and the same
`m_redir_enabled`, and with the same `m_store` unless `m_get` is the store function. -/
def set_keeps {T : Type} (h h1 : Heap T) : Prop :=
  (∀ (x : Nat) (c : _tunnel T), h.vals[x]? = some c →
    ∃ c1 : _tunnel T, h1.vals[x]? = some c1 ∧ c1.m_get = c.m_get ∧
      c1.m_redir_enabled = c.m_redir_enabled ∧
      (c.m_get ≠ Getter.store → c1.m_store = c.m_store)) ∧
  (∀ (x : Nat) (c : _tunnel_void T), h.voids[x]? = some c →
    ∃ c1 : _tunnel_void T, h1.voids[x]? = some c1 ∧ c1.m_get = c.m_get ∧
      c1.m_redir_enabled = c.m_redir_enabled)

/-- One call of the public or protected interface of `future<T>` / `promise<T>`
(future.h:60-165), for a payload type and for `void`. -/
inductive Op (T : Type) where
  | set_value (P : future) (v : T) : Op T
  | set_value_void (P : future_void) : Op T
  | get_future (P : future) : Op T
  | get_future_void (P : future_void) : Op T
  | then_val (F : future) (f : T → T) : Op T
  | then_void (F : future) (f : T → Unit) : Op T
  | void_then_val (F : future_void) (f : Unit → T) : Op T
  | void_then_void (F : future_void) (f : Unit → Unit) : Op T
  | wait (F : future) : Op T
  | wait_void (F : future_void) : Op T
  | wait_dt (F : future) (dt : Int) : Op T
  | wait_dt_void (F : future_void) (dt : Int) : Op T
  | get (F : future) : Op T
  | get_void (F : future_void) : Op T
  | get_take (F : future) : Op T
  | get_take_void (F : future_void) : Op T

/-- The heap left by one call, whether it returned or threw; `none` when the call has
not returned within `depth` nested `set` calls and `polls` polls. -/
def Op.run {T : Type} [Payload T] (depth polls : Nat) (h : Heap T) : Op T → Option (Heap T)
  | Op.set_value P v => (future.set_value depth h P v).final
  | Op.set_value_void P => (future_void.set_value depth h P).final
  | Op.get_future P => (future.get_future h P).final
  | Op.get_future_void P => (future_void.get_future h P).final
  | Op.then_val F f => (future.then_val h F f).final
  | Op.then_void F f => (future.then_void h F f).final
  | Op.void_then_val F f => (future_void.then_val h F f).final
  | Op.void_then_void F f => (future_void.then_void h F f).final
  | Op.wait F => (future.wait polls h F).final
  | Op.wait_void F => (future_void.wait polls h F).final
  | Op.wait_dt F dt => (future.wait_dt h F dt).final
  | Op.wait_dt_void F dt => (future_void.wait_dt h F dt).final
  | Op.get F => (future.get polls h F).final
  | Op.get_void F => (future_void.get polls h F).final
  | Op.get_take F => (future.get_take polls h F).final
  | Op.get_take_void F => (future_void.get_take polls h F).final

/-- The heap left by a sequence of calls, each with its own bounds `(depth, polls)`. -/
def run_all {T : Type} [Payload T] : List (Nat × Nat × Op T) → Heap T → Option (Heap T)
  | [], h => some h
  | (depth, polls, op) :: ops, h =>
    match op.run depth polls h with
    | none => none
    | some h1 => run_all ops h1

/-- Every tunnel that has `m_redir_enabled` in the first heap is in the second heap and
has `m_redir_enabled` there. -/
def latch_kept {T : Type} (h h1 : Heap T) : Prop :=
  (∀ (x : Nat) (c : _tunnel T), h.vals[x]? = some c → c.m_redir_enabled = true →
    ∃ c1 : _tunnel T, h1.vals[x]? = some c1 ∧ c1.m_redir_enabled = true) ∧
  (∀ (x : Nat) (c : _tunnel_void T), h.voids[x]? = some c → c.m_redir_enabled = true →
    ∃ c1 : _tunnel_void T, h1.voids[x]? = some c1 ∧ c1.m_redir_enabled = true)

/-! ## Shared lemmas -/

/-- An address that holds a tunnel is below the number of tunnels. -/
theorem lookup_lt {α : Type} {l : List α} {i : Nat} {c : α} (h : l[i]? = some c) :
    i < l.length := by
  rcases Nat.lt_or_ge i l.length with h1 | h1
  · exact h1
  · rw [List.getElem?_eq_none h1] at h
    cases h

/-- A redirected `_tunnel<T>` makes `wait()` throw at the first poll. -/
theorem tunnel_wait_redirected {T : Type} (h : Heap T) (a : Nat) (c : _tunnel T)
    (hc : h.vals[a]? = some c) (hr : c.m_redir_enabled = true) (polls : Nat) :
    _tunnel.wait (polls + 1) h a = Result.throw redir_error h := by
  simp [_tunnel.wait, hc, hr]

/-- A redirected `_tunnel<void>` makes `wait()` throw at the first poll. -/
theorem tunnel_void_wait_redirected {T : Type} (h : Heap T) (a : Nat) (c : _tunnel_void T)
    (hc : h.voids[a]? = some c) (hr : c.m_redir_enabled = true) (polls : Nat) :
    _tunnel_void.wait (polls + 1) h a = Result.throw redir_error h := by
  simp [_tunnel_void.wait, hc, hr]

/-- On a `_tunnel<T>` that is neither set nor redirected the loop of `wait()` never exits. -/
theorem tunnel_wait_hangs {T : Type} (h : Heap T) (a : Nat) (c : _tunnel T)
    (hc : h.vals[a]? = some c) (hr : c.m_redir_enabled = false) (hs : c.m_store_set = false)
    (polls : Nat) : _tunnel.wait polls h a = Result.hang := by
  induction polls with
  | zero => rfl
  | succ n ih => simp [_tunnel.wait, hc, hr, hs, ih]

/-- On a `_tunnel<T>` that is set and not redirected `wait()` returns at the first poll. -/
theorem tunnel_wait_set {T : Type} (h : Heap T) (a : Nat) (c : _tunnel T)
    (hc : h.vals[a]? = some c) (hr : c.m_redir_enabled = false) (hs : c.m_store_set = true)
    (polls : Nat) : _tunnel.wait (polls + 1) h a = Result.ok () h := by
  simp [_tunnel.wait, hc, hr, hs]

/-! ## Claims -/

/-- C1: round trip. On a fresh promise `P` (in any heap), `F = P.get_future()` succeeds,
`P.set_value(v)` then returns for every call depth of at least two, and afterwards
`F.get()` returns `v` and `F.wait()` returns `true`, both at the first poll and
without changing the heap. -/
theorem roundtrip_get_future_set_value {T : Type} [Payload T] (h : Heap T) (v : T)
    (depth polls : Nat) :
    ∃ F h1, future.get_future (future.new h).2 (future.new h).1 = Result.ok F h1 ∧
      ∃ h2, future.set_value (depth + 2) h1 (future.new h).1 v = Result.ok () h2 ∧
        future.get (polls + 1) h2 F = Result.ok v h2 ∧
        future.wait (polls + 1) h2 F = Result.ok true h2 := by
  simp only [future.get_future, future.new, _tunnel.fresh, _tunnel.redirect_nolock,
    Result.ok.injEq, and_assoc, exists_and_left, exists_eq_left',
    List.getElem?_concat_length, Bool.false_eq_true, if_false]
  simp [future.set_value, _tunnel.set, mark_val, future.get, future.wait, _tunnel.wait,
    List.getElem_append_right]

/-- C2: chaining law. With `P` a fresh promise, `F = P.get_future()`, `A = F.then(f)` and
`B = A.then(g)` all succeed, `P.set_value(v)` returns for every call depth of at least
four, and afterwards `B.get()` returns `g (f v)` at the first poll. -/
theorem chaining_law_then_then {T : Type} [Payload T] (h : Heap T) (v : T) (f g : T → T)
    (depth polls : Nat) :
    ∃ F h1, future.get_future (future.new h).2 (future.new h).1 = Result.ok F h1 ∧
      ∃ A h2, future.then_val h1 F f = Result.ok A h2 ∧
        ∃ B h3, future.then_val h2 A g = Result.ok B h3 ∧
          ∃ h4, future.set_value (depth + 4) h3 (future.new h).1 v = Result.ok () h4 ∧
            future.get (polls + 1) h4 B = Result.ok (g (f v)) h4 := by
  refine ⟨{ m_next := h.vals.length + 1 },
    { h with vals := h.vals ++
        [{ (_tunnel.fresh : _tunnel T) with
            m_get := Getter.forward (h.vals.length + 1), m_redir_enabled := true },
         _tunnel.fresh] }, ?_, ?_⟩
  · simp [future.get_future, future.new, _tunnel.fresh, _tunnel.redirect_nolock]
  refine ⟨{ m_next := h.vals.length + 2 },
    { h with vals := h.vals ++
        [{ (_tunnel.fresh : _tunnel T) with
            m_get := Getter.forward (h.vals.length + 1), m_redir_enabled := true },
         { (_tunnel.fresh : _tunnel T) with
            m_get := Getter.then_val (h.vals.length + 2) f, m_redir_enabled := true },
         _tunnel.fresh] }, ?_, ?_⟩
  · simp [future.then_val, future.new, _tunnel.fresh, _tunnel.redirect_nolock,
      List.getElem_append_right]
  refine ⟨{ m_next := h.vals.length + 3 },
    { h with vals := h.vals ++
        [{ (_tunnel.fresh : _tunnel T) with
            m_get := Getter.forward (h.vals.length + 1), m_redir_enabled := true },
         { (_tunnel.fresh : _tunnel T) with
            m_get := Getter.then_val (h.vals.length + 2) f, m_redir_enabled := true },
         { (_tunnel.fresh : _tunnel T) with
            m_get := Getter.then_val (h.vals.length + 3) g, m_redir_enabled := true },
         _tunnel.fresh] }, ?_, ?_⟩
  · simp [future.then_val, future.new, _tunnel.fresh, _tunnel.redirect_nolock,
      List.getElem_append_right]
  simp [future.set_value, future.new, _tunnel.fresh, _tunnel.set, mark_val, future.get,
    _tunnel.wait, List.getElem_append_right]

/-- C3: the code at the failing input. On the empty heap with `promise<Nat> P`,
`F = P.get_future()` and `G1 = F.then(f)`, the second call `F.then(g)` does not throw: it
returns a new future `G2` and overwrites the redirect of the cell of `F`.  After
`P.set_value(5)` the cell of `G1` is still the default-constructed one (never set) and
`G2.get()` returns `g 5`. -/
theorem second_then_is_not_rejected :
    future.get_future (future.new (Heap.empty : Heap Nat)).2 { m_next := 0 } =
      Result.ok { m_next := 1 }
        { vals := [{ m_store := 0, m_get := Getter.forward 1, m_redir_enabled := true,
                     m_store_set := false }, _tunnel.fresh],
          voids := [], calls := [] } ∧
    future.then_val
        { vals := [{ m_store := 0, m_get := Getter.forward 1, m_redir_enabled := true,
                     m_store_set := false }, _tunnel.fresh],
          voids := [], calls := [] } { m_next := 1 } (fun x : Nat => x + 1) =
      Result.ok { m_next := 2 }
        { vals := [{ m_store := 0, m_get := Getter.forward 1, m_redir_enabled := true,
                     m_store_set := false },
                   { m_store := 0, m_get := Getter.then_val 2 (fun x : Nat => x + 1),
                     m_redir_enabled := true, m_store_set := false },
                   _tunnel.fresh],
          voids := [], calls := [] } ∧
    future.then_val
        { vals := [{ m_store := 0, m_get := Getter.forward 1, m_redir_enabled := true,
                     m_store_set := false },
                   { m_store := 0, m_get := Getter.then_val 2 (fun x : Nat => x + 1),
                     m_redir_enabled := true, m_store_set := false },
                   _tunnel.fresh],
          voids := [], calls := [] } { m_next := 1 } (fun x : Nat => x * 10) =
      Result.ok { m_next := 3 }
        { vals := [{ m_store := 0, m_get := Getter.forward 1, m_redir_enabled := true,
                     m_store_set := false },
                   { m_store := 0, m_get := Getter.then_val 3 (fun x : Nat => x * 10),
                     m_redir_enabled := true, m_store_set := false },
                   _tunnel.fresh, _tunnel.fresh],
          voids := [], calls := [] } ∧
    ∃ h4 : Heap Nat,
      future.set_value 3
        { vals := [{ m_store := 0, m_get := Getter.forward 1, m_redir_enabled := true,
                     m_store_set := false },
                   { m_store := 0, m_get := Getter.then_val 3 (fun x : Nat => x * 10),
                     m_redir_enabled := true, m_store_set := false },
                   _tunnel.fresh, _tunnel.fresh],
          voids := [], calls := [] } { m_next := 0 } 5 = Result.ok () h4 ∧
      h4.vals[2]? = some _tunnel.fresh ∧
      future.get 1 h4 { m_next := 3 } = Result.ok 50 h4 ∧
      h4.calls = [Call.val 0 5, Call.val 1 5, Call.val 3 50] := by
  refine ⟨rfl, rfl, rfl, _, rfl, rfl, rfl, rfl⟩

/-- C4: `get_future()` is callable once. On a fresh promise (payload or no payload)
the first call succeeds; a second call throws and leaves the heap as it was; a later
`set_value` still reaches the future of the first call; and a call after the delivery
throws as well.  More generally every call on a promise whose cell has
`m_redir_enabled` throws the error and leaves the heap unchanged. -/
theorem get_future_only_once {T : Type} [Payload T] (h : Heap T) (v : T)
    (depth polls : Nat) :
    (∃ F h1, future.get_future (future.new h).2 (future.new h).1 = Result.ok F h1 ∧
      future.get_future h1 (future.new h).1 = Result.throw redir_error h1 ∧
      ∃ h2, future.set_value (depth + 2) h1 (future.new h).1 v = Result.ok () h2 ∧
        future.get (polls + 1) h2 F = Result.ok v h2 ∧
        future.get_future h2 (future.new h).1 = Result.throw redir_error h2) ∧
    (∃ F h1, future_void.get_future (future_void.new h).2 (future_void.new h).1 =
        Result.ok F h1 ∧
      future_void.get_future h1 (future_void.new h).1 = Result.throw redir_error h1 ∧
      ∃ h2, future_void.set_value (depth + 2) h1 (future_void.new h).1 = Result.ok () h2 ∧
        future_void.get (polls + 1) h2 F = Result.ok () h2 ∧
        future_void.wait (polls + 1) h2 F = Result.ok true h2 ∧
        future_void.get_future h2 (future_void.new h).1 = Result.throw redir_error h2) ∧
    (∀ (P : future) (c : _tunnel T), h.vals[P.m_next]? = some c →
      c.m_redir_enabled = true → future.get_future h P = Result.throw redir_error h) ∧
    (∀ (P : future_void) (c : _tunnel_void T), h.voids[P.m_next]? = some c →
      c.m_redir_enabled = true → future_void.get_future h P = Result.throw redir_error h) := by
  refine ⟨?_, ?_, ?_, ?_⟩
  · refine ⟨{ m_next := h.vals.length + 1 },
      { h with vals := h.vals ++
          [{ (_tunnel.fresh : _tunnel T) with
              m_get := Getter.forward (h.vals.length + 1), m_redir_enabled := true },
           _tunnel.fresh] }, ?_, ?_, ?_⟩
    · simp [future.get_future, future.new, _tunnel.fresh, _tunnel.redirect_nolock]
    · simp [future.get_future, future.new, _tunnel.fresh, List.getElem_append_right]
    · simp [future.set_value, future.new, _tunnel.fresh, _tunnel.set, mark_val, future.get,
        future.get_future, _tunnel.wait, List.getElem_append_right]
  · refine ⟨{ m_next := h.voids.length + 1 },
      { h with voids := h.voids ++
          [{ (_tunnel_void.fresh : _tunnel_void T) with
              m_get := VoidGetter.forward (h.voids.length + 1), m_redir_enabled := true },
           _tunnel_void.fresh] }, ?_, ?_, ?_⟩
    · simp [future_void.get_future, future_void.new, _tunnel_void.fresh,
        _tunnel_void.redirect_nolock]
    · simp [future_void.get_future, future_void.new, _tunnel_void.fresh,
        List.getElem_append_right]
    · simp [future_void.set_value, future_void.new, _tunnel_void.fresh, _tunnel_void.set,
        mark_void, future_void.get, future_void.wait, future_void.get_future,
        _tunnel_void.wait, List.getElem_append_right]
  · intro P c hc hr
    simp [future.get_future, hc, hr]
  · intro P c hc hr
    simp [future_void.get_future, hc, hr]

/-- Witness for C4: the general clause applied to the promise cell left by
`P.get_future()` on the empty heap. -/
theorem get_future_only_once_witness :
    ({ vals := [{ m_store := 0, m_get := Getter.forward 1, m_redir_enabled := true,
                  m_store_set := false }, _tunnel.fresh],
       voids := [], calls := [] } : Heap Nat).vals[0]? =
      some { m_store := 0, m_get := Getter.forward 1, m_redir_enabled := true,
             m_store_set := false } ∧
    ({ m_store := 0, m_get := Getter.forward 1, m_redir_enabled := true,
       m_store_set := false } : _tunnel Nat).m_redir_enabled = true ∧
    future.get_future
      ({ vals := [{ m_store := 0, m_get := Getter.forward 1, m_redir_enabled := true,
                    m_store_set := false }, _tunnel.fresh],
         voids := [], calls := [] } : Heap Nat) { m_next := 0 } =
      Result.throw redir_error
        { vals := [{ m_store := 0, m_get := Getter.forward 1, m_redir_enabled := true,
                     m_store_set := false }, _tunnel.fresh],
          voids := [], calls := [] } :=
  ⟨rfl, rfl, (get_future_only_once
      ({ vals := [{ m_store := 0, m_get := Getter.forward 1, m_redir_enabled := true,
                    m_store_set := false }, _tunnel.fresh],
         voids := [], calls := [] } : Heap Nat) 0 0 0).2.2.1
    { m_next := 0 }
    { m_store := 0, m_get := Getter.forward 1, m_redir_enabled := true, m_store_set := false }
    rfl rfl⟩

/-- C5: on a handle whose cell has `m_redir_enabled` (payload or no payload, value
delivered or not), `wait()`, `get()` and `get_take()` each throw the error at the first
poll and leave the whole heap, hence the flags and the stored value, unchanged. -/
theorem untimed_wait_get_take_throw_when_redirected {T : Type} [Payload T] (h : Heap T)
    (polls : Nat) :
    (∀ (F : future) (c : _tunnel T), h.vals[F.m_next]? = some c →
      c.m_redir_enabled = true →
        future.wait (polls + 1) h F = Result.throw redir_error h ∧
        future.get (polls + 1) h F = Result.throw redir_error h ∧
        future.get_take (polls + 1) h F = Result.throw redir_error h) ∧
    (∀ (F : future_void) (c : _tunnel_void T), h.voids[F.m_next]? = some c →
      c.m_redir_enabled = true →
        future_void.wait (polls + 1) h F = Result.throw redir_error h ∧
        future_void.get (polls + 1) h F = Result.throw redir_error h ∧
        future_void.get_take (polls + 1) h F = Result.throw redir_error h) := by
  constructor
  · intro F c hc hr
    simp [future.wait, future.get, future.get_take, tunnel_wait_redirected h _ c hc hr]
  · intro F c hc hr
    simp [future_void.wait, future_void.get, future_void.get_take,
      tunnel_void_wait_redirected h _ c hc hr]

/-- Witness for C5: the cell of a future on which `then` was called after the value 7
had been stored; `get_take()` throws and `m_store_set` stays `true`. -/
theorem untimed_wait_get_take_throw_when_redirected_witness :
    ({ vals := [{ m_store := 7, m_get := Getter.then_val 1 (fun x : Nat => x + 1),
                  m_redir_enabled := true, m_store_set := true }, _tunnel.fresh],
       voids := [], calls := [] } : Heap Nat).vals[0]? =
      some { m_store := 7, m_get := Getter.then_val 1 (fun x : Nat => x + 1),
             m_redir_enabled := true, m_store_set := true } ∧
    ({ m_store := 7, m_get := Getter.then_val 1 (fun x : Nat => x + 1),
       m_redir_enabled := true, m_store_set := true } : _tunnel Nat).m_redir_enabled = true ∧
    future.get_take 1
      ({ vals := [{ m_store := 7, m_get := Getter.then_val 1 (fun x : Nat => x + 1),
                    m_redir_enabled := true, m_store_set := true }, _tunnel.fresh],
         voids := [], calls := [] } : Heap Nat) { m_next := 0 } =
      Result.throw redir_error
        { vals := [{ m_store := 7, m_get := Getter.then_val 1 (fun x : Nat => x + 1),
                     m_redir_enabled := true, m_store_set := true }, _tunnel.fresh],
          voids := [], calls := [] } :=
  ⟨rfl, rfl, ((untimed_wait_get_take_throw_when_redirected
      ({ vals := [{ m_store := 7, m_get := Getter.then_val 1 (fun x : Nat => x + 1),
                    m_redir_enabled := true, m_store_set := true }, _tunnel.fresh],
         voids := [], calls := [] } : Heap Nat) 0).1
    { m_next := 0 }
    { m_store := 7, m_get := Getter.then_val 1 (fun x : Nat => x + 1),
      m_redir_enabled := true, m_store_set := true }
    rfl rfl).2.2⟩

/-- C6, counterexample: on the empty heap, after `F.then(f)` on a fresh `future<Nat>`
the cell of `F` is redirected, yet `F.wait(0)` and `F.wait(-1)` return the boolean
`false` and throw nothing. -/
theorem timed_wait_nonpositive_returns_on_redirected :
    future.then_val (future.new (Heap.empty : Heap Nat)).2 { m_next := 0 }
        (fun x : Nat => x + 1) =
      Result.ok { m_next := 1 }
        { vals := [{ m_store := 0, m_get := Getter.then_val 1 (fun x : Nat => x + 1),
                     m_redir_enabled := true, m_store_set := false }, _tunnel.fresh],
          voids := [], calls := [] } ∧
    future.wait_dt
        ({ vals := [{ m_store := 0, m_get := Getter.then_val 1 (fun x : Nat => x + 1),
                      m_redir_enabled := true, m_store_set := false }, _tunnel.fresh],
           voids := [], calls := [] } : Heap Nat) { m_next := 0 } 0 =
      Result.ok false
        { vals := [{ m_store := 0, m_get := Getter.then_val 1 (fun x : Nat => x + 1),
                     m_redir_enabled := true, m_store_set := false }, _tunnel.fresh],
          voids := [], calls := [] } ∧
    future.wait_dt
        ({ vals := [{ m_store := 0, m_get := Getter.then_val 1 (fun x : Nat => x + 1),
                      m_redir_enabled := true, m_store_set := false }, _tunnel.fresh],
           voids := [], calls := [] } : Heap Nat) { m_next := 0 } (-1) =
      Result.ok false
        { vals := [{ m_store := 0, m_get := Getter.then_val 1 (fun x : Nat => x + 1),
                     m_redir_enabled := true, m_store_set := false }, _tunnel.fresh],
          voids := [], calls := [] } :=
  ⟨rfl, rfl, rfl⟩

/-- C6, amended: on a handle whose cell has `m_redir_enabled` (payload or no payload),
`wait(dt)` throws the error and leaves the heap unchanged when `dt` is positive, and
returns `m_store_set` without throwing when `dt` is zero or negative. -/
theorem timed_wait_on_redirected {T : Type} (h : Heap T) (dt : Int) :
    (∀ (F : future) (c : _tunnel T), h.vals[F.m_next]? = some c →
      c.m_redir_enabled = true →
        future.wait_dt h F dt =
          if dt > 0 then Result.throw redir_error h else Result.ok c.m_store_set h) ∧
    (∀ (F : future_void) (c : _tunnel_void T), h.voids[F.m_next]? = some c →
      c.m_redir_enabled = true →
        future_void.wait_dt h F dt =
          if dt > 0 then Result.throw redir_error h else Result.ok c.m_store_set h) := by
  constructor
  · intro F c hc hr
    by_cases hdt : dt > 0
    · simp [future.wait_dt, _tunnel.wait_for, hdt, hc, hr]
    · simp [future.wait_dt, hdt, hc]
  · intro F c hc hr
    by_cases hdt : dt > 0
    · simp [future_void.wait_dt, _tunnel_void.wait_for, hdt, hc, hr]
    · simp [future_void.wait_dt, hdt, hc]

/-- Witness for C6 amended: a redirected cell and the positive timeout 250. -/
theorem timed_wait_on_redirected_witness :
    ({ vals := [{ m_store := 0, m_get := Getter.then_val 1 (fun x : Nat => x + 1),
                  m_redir_enabled := true, m_store_set := false }, _tunnel.fresh],
       voids := [], calls := [] } : Heap Nat).vals[0]? =
      some { m_store := 0, m_get := Getter.then_val 1 (fun x : Nat => x + 1),
             m_redir_enabled := true, m_store_set := false } ∧
    ({ m_store := 0, m_get := Getter.then_val 1 (fun x : Nat => x + 1),
       m_redir_enabled := true, m_store_set := false } : _tunnel Nat).m_redir_enabled = true ∧
    future.wait_dt
        ({ vals := [{ m_store := 0, m_get := Getter.then_val 1 (fun x : Nat => x + 1),
                      m_redir_enabled := true, m_store_set := false }, _tunnel.fresh],
           voids := [], calls := [] } : Heap Nat) { m_next := 0 } 250 =
      if (250 : Int) > 0 then
        Result.throw redir_error
          { vals := [{ m_store := 0, m_get := Getter.then_val 1 (fun x : Nat => x + 1),
                       m_redir_enabled := true, m_store_set := false }, _tunnel.fresh],
            voids := [], calls := [] }
      else
        Result.ok false
          { vals := [{ m_store := 0, m_get := Getter.then_val 1 (fun x : Nat => x + 1),
                       m_redir_enabled := true, m_store_set := false }, _tunnel.fresh],
            voids := [], calls := [] } :=
  ⟨rfl, rfl, (timed_wait_on_redirected
      ({ vals := [{ m_store := 0, m_get := Getter.then_val 1 (fun x : Nat => x + 1),
                    m_redir_enabled := true, m_store_set := false }, _tunnel.fresh],
         voids := [], calls := [] } : Heap Nat) 250).1
    { m_next := 0 }
    { m_store := 0, m_get := Getter.then_val 1 (fun x : Nat => x + 1),
      m_redir_enabled := true, m_store_set := false }
    rfl rfl⟩

/-- C7: `get_take()` clears the set latch. On a cell that is set and not redirected,
`get_take()` returns the stored value at the first poll and leaves the cell with
`m_store_set = false`, the moved-from payload, and the other fields as they were; on the
resulting heap every `wait(dt)` returns `false`, and `get()` and `get_take()` do not
return for any number of polls. -/
theorem get_take_clears_store_set {T : Type} [Payload T] (h : Heap T) (F : future)
    (c : _tunnel T) (hc : h.vals[F.m_next]? = some c) (hr : c.m_redir_enabled = false)
    (hs : c.m_store_set = true) (polls : Nat) :
    ∃ h1, future.get_take (polls + 1) h F = Result.ok c.m_store h1 ∧
      h1.vals[F.m_next]? = some { m_store := Payload.moved_from c.m_store, m_get := c.m_get,
                                  m_redir_enabled := c.m_redir_enabled, m_store_set := false } ∧
      (∀ a, a ≠ F.m_next → h1.vals[a]? = h.vals[a]?) ∧
      h1.voids = h.voids ∧ h1.calls = h.calls ∧
      (∀ dt : Int, future.wait_dt h1 F dt = Result.ok false h1) ∧
      (∀ n, future.get n h1 F = Result.hang) ∧
      (∀ n, future.get_take n h1 F = Result.hang) := by
  have hlt := lookup_lt hc
  have hc1 : (h.vals.set F.m_next
      { m_store := Payload.moved_from c.m_store, m_get := c.m_get,
        m_redir_enabled := c.m_redir_enabled, m_store_set := false })[F.m_next]? =
      some { m_store := Payload.moved_from c.m_store, m_get := c.m_get,
             m_redir_enabled := c.m_redir_enabled, m_store_set := false } := by
    simp [hlt]
  have hhang : ∀ n, _tunnel.wait n
      { vals := h.vals.set F.m_next
          { m_store := Payload.moved_from c.m_store, m_get := c.m_get,
            m_redir_enabled := c.m_redir_enabled, m_store_set := false },
        voids := h.voids, calls := h.calls } F.m_next = Result.hang :=
    fun n => tunnel_wait_hangs
      { vals := h.vals.set F.m_next
          { m_store := Payload.moved_from c.m_store, m_get := c.m_get,
            m_redir_enabled := c.m_redir_enabled, m_store_set := false },
        voids := h.voids, calls := h.calls } F.m_next
      { m_store := Payload.moved_from c.m_store, m_get := c.m_get,
        m_redir_enabled := c.m_redir_enabled, m_store_set := false } hc1 hr rfl n
  refine ⟨{ vals := h.vals.set F.m_next
              { m_store := Payload.moved_from c.m_store, m_get := c.m_get,
                m_redir_enabled := c.m_redir_enabled, m_store_set := false },
            voids := h.voids, calls := h.calls }, ?_, hc1, ?_, rfl, rfl, ?_, ?_, ?_⟩
  · simp [future.get_take, tunnel_wait_set h _ c hc hr hs, hc]
  · intro a ha
    simp [List.getElem?_set, Ne.symm ha]
  · intro dt
    by_cases hdt : dt > 0
    · simp [future.wait_dt, _tunnel.wait_for, hdt, hlt, hr]
    · simp [future.wait_dt, hdt, hlt]
  · intro n
    simp [future.get, hhang n]
  · intro n
    simp [future.get_take, hhang n]

/-- Witness for C7: the cell of the future after `P.set_value(42)`. -/
theorem get_take_clears_store_set_witness :
    ({ vals := [{ m_store := 0, m_get := Getter.forward 1, m_redir_enabled := true,
                  m_store_set := true },
                { m_store := 42, m_get := Getter.store, m_redir_enabled := false,
                  m_store_set := true }],
       voids := [], calls := [Call.val 0 42, Call.val 1 42] } : Heap Nat).vals[1]? =
      some { m_store := 42, m_get := Getter.store, m_redir_enabled := false,
             m_store_set := true } ∧
    ∃ h1, future.get_take 1
        ({ vals := [{ m_store := 0, m_get := Getter.forward 1, m_redir_enabled := true,
                      m_store_set := true },
                    { m_store := 42, m_get := Getter.store, m_redir_enabled := false,
                      m_store_set := true }],
           voids := [], calls := [Call.val 0 42, Call.val 1 42] } : Heap Nat)
        { m_next := 1 } = Result.ok 42 h1 ∧
      h1.vals[1]? = some { m_store := 42, m_get := Getter.store, m_redir_enabled := false,
                           m_store_set := false } ∧
      (∀ dt : Int, future.wait_dt h1 { m_next := 1 } dt = Result.ok false h1) ∧
      (∀ n, future.get n h1 { m_next := 1 } = Result.hang) := by
  obtain ⟨h1, e1, e2, _, _, _, e3, e4, _⟩ :=
    get_take_clears_store_set
      ({ vals := [{ m_store := 0, m_get := Getter.forward 1, m_redir_enabled := true,
                    m_store_set := true },
                  { m_store := 42, m_get := Getter.store, m_redir_enabled := false,
                    m_store_set := true }],
         voids := [], calls := [Call.val 0 42, Call.val 1 42] } : Heap Nat)
      { m_next := 1 }
      { m_store := 42, m_get := Getter.store, m_redir_enabled := false, m_store_set := true }
      rfl rfl rfl 0
  exact ⟨rfl, h1, e1, e2, e3, e4⟩

/-- C8: the timed wait on a direct cell is a probe. On a handle whose cell is not
redirected (payload or no payload), for every `dt`, `wait(dt)` does not throw, returns
`m_store_set`, and leaves the heap unchanged. -/
theorem timed_wait_is_pure_probe {T : Type} (h : Heap T) (dt : Int) :
    (∀ (F : future) (c : _tunnel T), h.vals[F.m_next]? = some c →
      c.m_redir_enabled = false → future.wait_dt h F dt = Result.ok c.m_store_set h) ∧
    (∀ (F : future_void) (c : _tunnel_void T), h.voids[F.m_next]? = some c →
      c.m_redir_enabled = false →
        future_void.wait_dt h F dt = Result.ok c.m_store_set h) := by
  constructor
  · intro F c hc hr
    by_cases hdt : dt > 0
    · simp [future.wait_dt, _tunnel.wait_for, hdt, hc, hr]
    · simp [future.wait_dt, hdt, hc]
  · intro F c hc hr
    by_cases hdt : dt > 0
    · simp [future_void.wait_dt, _tunnel_void.wait_for, hdt, hc, hr]
    · simp [future_void.wait_dt, hdt, hc]

/-- Witness for C8: a fresh, unset `future<Nat>` probed with the timeout 100. -/
theorem timed_wait_is_pure_probe_witness :
    (future.new (Heap.empty : Heap Nat)).2.vals[0]? = some _tunnel.fresh ∧
    (_tunnel.fresh : _tunnel Nat).m_redir_enabled = false ∧
    future.wait_dt (future.new (Heap.empty : Heap Nat)).2 { m_next := 0 } 100 =
      Result.ok false (future.new (Heap.empty : Heap Nat)).2 :=
  ⟨rfl, rfl, (timed_wait_is_pure_probe (future.new (Heap.empty : Heap Nat)).2 100).1
    { m_next := 0 } _tunnel.fresh rfl rfl⟩

/-- C9: the already-resolved future, waiting side. In any heap and for every call
depth of at least two, `make_empty_future(v)` returns a future whose cell is not
redirected, is set and stores `v`; on it `wait()` and `wait(dt)` return `true` and `get()`
returns `v`, at the first poll and without throwing.  `make_empty_future<void>()` returns
a future on which `wait()` and `wait(dt)` return `true` and `get()` returns. -/
theorem make_empty_future_is_resolved {T : Type} [Payload T] (h : Heap T) (v : T)
    (depth polls : Nat) (dt : Int) :
    (∃ F h1, make_empty_future (depth + 2) h v = Result.ok F h1 ∧
      (∃ c, h1.vals[F.m_next]? = some c ∧ c.m_redir_enabled = false ∧
        c.m_store_set = true ∧ c.m_store = v) ∧
      future.wait (polls + 1) h1 F = Result.ok true h1 ∧
      future.wait_dt h1 F dt = Result.ok true h1 ∧
      future.get (polls + 1) h1 F = Result.ok v h1) ∧
    (∃ F h1, make_empty_future_void (depth + 2) h = Result.ok F h1 ∧
      (∃ c, h1.voids[F.m_next]? = some c ∧ c.m_redir_enabled = false ∧
        c.m_store_set = true) ∧
      future_void.wait (polls + 1) h1 F = Result.ok true h1 ∧
      future_void.wait_dt h1 F dt = Result.ok true h1 ∧
      future_void.get (polls + 1) h1 F = Result.ok () h1) := by
  constructor
  · refine ⟨{ m_next := h.vals.length + 1 },
      { vals := h.vals ++
          [{ m_store := Payload.init, m_get := Getter.forward (h.vals.length + 1),
             m_redir_enabled := true, m_store_set := true },
           { m_store := v, m_get := Getter.store, m_redir_enabled := false,
             m_store_set := true }],
        voids := h.voids,
        calls := h.calls ++ [Call.val h.vals.length v, Call.val (h.vals.length + 1) v] },
      ?_, ?_, ?_, ?_, ?_⟩
    · simp [make_empty_future, future.get_future, future.new, _tunnel.fresh,
        _tunnel.redirect_nolock, future.set_value, _tunnel.set, mark_val,
        List.getElem_append_right]
    · simp [List.getElem_append_right]
    · simp [future.wait, _tunnel.wait, List.getElem_append_right]
    · by_cases hdt : dt > 0
      · simp [future.wait_dt, _tunnel.wait_for, hdt, List.getElem_append_right]
      · simp [future.wait_dt, hdt, List.getElem_append_right]
    · simp [future.get, _tunnel.wait, List.getElem_append_right]
  · refine ⟨{ m_next := h.voids.length + 1 },
      { vals := h.vals,
        voids := h.voids ++
          [{ m_get := VoidGetter.forward (h.voids.length + 1), m_redir_enabled := true,
             m_store_set := true },
           { m_get := VoidGetter.nop, m_redir_enabled := false, m_store_set := true }],
        calls := h.calls ++ [Call.void h.voids.length, Call.void (h.voids.length + 1)] },
      ?_, ?_, ?_, ?_, ?_⟩
    · simp [make_empty_future_void, future_void.get_future, future_void.new,
        _tunnel_void.fresh, _tunnel_void.redirect_nolock, future_void.set_value,
        _tunnel_void.set, mark_void, List.getElem_append_right]
    · simp [List.getElem_append_right]
    · simp [future_void.wait, _tunnel_void.wait, List.getElem_append_right]
    · by_cases hdt : dt > 0
      · simp [future_void.wait_dt, _tunnel_void.wait_for, hdt, List.getElem_append_right]
      · simp [future_void.wait_dt, hdt, List.getElem_append_right]
    · simp [future_void.get, _tunnel_void.wait, List.getElem_append_right]

/-- C10, counterexample: on the empty heap `F = make_empty_future(5)` is resolved, and
`G = F.then(x + 1)` succeeds, but the cell of `G` is the default-constructed one: it is
not set, it does not store 6, `G.wait(1)` returns `false`, and `G.get()` does not return
for any number of polls. -/
theorem then_on_resolved_future_is_never_set :
    make_empty_future 2 (Heap.empty : Heap Nat) 5 =
      Result.ok { m_next := 1 }
        { vals := [{ m_store := 0, m_get := Getter.forward 1, m_redir_enabled := true,
                     m_store_set := true },
                   { m_store := 5, m_get := Getter.store, m_redir_enabled := false,
                     m_store_set := true }],
          voids := [], calls := [Call.val 0 5, Call.val 1 5] } ∧
    future.then_val
        ({ vals := [{ m_store := 0, m_get := Getter.forward 1, m_redir_enabled := true,
                      m_store_set := true },
                    { m_store := 5, m_get := Getter.store, m_redir_enabled := false,
                      m_store_set := true }],
           voids := [], calls := [Call.val 0 5, Call.val 1 5] } : Heap Nat)
        { m_next := 1 } (fun x : Nat => x + 1) =
      Result.ok { m_next := 2 }
        { vals := [{ m_store := 0, m_get := Getter.forward 1, m_redir_enabled := true,
                     m_store_set := true },
                   { m_store := 5, m_get := Getter.then_val 2 (fun x : Nat => x + 1),
                     m_redir_enabled := true, m_store_set := true },
                   { m_store := 0, m_get := Getter.store, m_redir_enabled := false,
                     m_store_set := false }],
          voids := [], calls := [Call.val 0 5, Call.val 1 5] } ∧
    future.wait_dt
        ({ vals := [{ m_store := 0, m_get := Getter.forward 1, m_redir_enabled := true,
                      m_store_set := true },
                    { m_store := 5, m_get := Getter.then_val 2 (fun x : Nat => x + 1),
                      m_redir_enabled := true, m_store_set := true },
                    { m_store := 0, m_get := Getter.store, m_redir_enabled := false,
                      m_store_set := false }],
           voids := [], calls := [Call.val 0 5, Call.val 1 5] } : Heap Nat)
        { m_next := 2 } 1 =
      Result.ok false
        { vals := [{ m_store := 0, m_get := Getter.forward 1, m_redir_enabled := true,
                     m_store_set := true },
                   { m_store := 5, m_get := Getter.then_val 2 (fun x : Nat => x + 1),
                     m_redir_enabled := true, m_store_set := true },
                   { m_store := 0, m_get := Getter.store, m_redir_enabled := false,
                     m_store_set := false }],
          voids := [], calls := [Call.val 0 5, Call.val 1 5] } ∧
    ∀ polls, future.get polls
        ({ vals := [{ m_store := 0, m_get := Getter.forward 1, m_redir_enabled := true,
                      m_store_set := true },
                    { m_store := 5, m_get := Getter.then_val 2 (fun x : Nat => x + 1),
                      m_redir_enabled := true, m_store_set := true },
                    { m_store := 0, m_get := Getter.store, m_redir_enabled := false,
                      m_store_set := false }],
           voids := [], calls := [Call.val 0 5, Call.val 1 5] } : Heap Nat)
        { m_next := 2 } = Result.hang := by
  refine ⟨rfl, rfl, rfl, ?_⟩
  intro polls
  have hw := tunnel_wait_hangs
    ({ vals := [{ m_store := 0, m_get := Getter.forward 1, m_redir_enabled := true,
                  m_store_set := true },
                { m_store := 5, m_get := Getter.then_val 2 (fun x : Nat => x + 1),
                  m_redir_enabled := true, m_store_set := true },
                { m_store := 0, m_get := Getter.store, m_redir_enabled := false,
                  m_store_set := false }],
       voids := [], calls := [Call.val 0 5, Call.val 1 5] } : Heap Nat) 2
    { m_store := 0, m_get := Getter.store, m_redir_enabled := false, m_store_set := false }
    rfl rfl rfl polls
  simp [future.get, hw]

/-- C10, amended: in any heap, `F = make_empty_future(v)` followed by `G = F.then(f)`
succeeds, and `then` invokes nothing (the trace of `m_get` calls is unchanged): the cell
of `G` is the default-constructed one, so `G.get()` does not return for any number of
polls and `G.wait(dt)` returns `false`, while the cell of `F` still stores `v`, is set,
and is now redirected to `G` through `f`. -/
theorem then_on_resolved_future_does_not_fire {T : Type} [Payload T] (h : Heap T) (v : T)
    (f : T → T) (depth : Nat) :
    ∃ F h1, make_empty_future (depth + 2) h v = Result.ok F h1 ∧
      ∃ G h2, future.then_val h1 F f = Result.ok G h2 ∧
        h2.calls = h1.calls ∧
        h2.vals[G.m_next]? = some _tunnel.fresh ∧
        h2.vals[F.m_next]? = some { m_store := v, m_get := Getter.then_val G.m_next f,
                                    m_redir_enabled := true, m_store_set := true } ∧
        (∀ polls, future.get polls h2 G = Result.hang) ∧
        (∀ dt : Int, future.wait_dt h2 G dt = Result.ok false h2) := by
  have hG : (h.vals ++
      [{ m_store := Payload.init, m_get := Getter.forward (h.vals.length + 1),
         m_redir_enabled := true, m_store_set := true },
       { m_store := v, m_get := Getter.then_val (h.vals.length + 2) f,
         m_redir_enabled := true, m_store_set := true },
       (_tunnel.fresh : _tunnel T)])[h.vals.length + 2]? = some _tunnel.fresh := by
    simp [List.getElem_append_right]
  have hw : ∀ polls, _tunnel.wait polls
      { vals := h.vals ++
          [{ m_store := Payload.init, m_get := Getter.forward (h.vals.length + 1),
             m_redir_enabled := true, m_store_set := true },
           { m_store := v, m_get := Getter.then_val (h.vals.length + 2) f,
             m_redir_enabled := true, m_store_set := true },
           _tunnel.fresh],
        voids := h.voids,
        calls := h.calls ++ [Call.val h.vals.length v, Call.val (h.vals.length + 1) v] }
      (h.vals.length + 2) = Result.hang :=
    fun polls => tunnel_wait_hangs
      { vals := h.vals ++
          [{ m_store := Payload.init, m_get := Getter.forward (h.vals.length + 1),
             m_redir_enabled := true, m_store_set := true },
           { m_store := v, m_get := Getter.then_val (h.vals.length + 2) f,
             m_redir_enabled := true, m_store_set := true },
           _tunnel.fresh],
        voids := h.voids,
        calls := h.calls ++ [Call.val h.vals.length v, Call.val (h.vals.length + 1) v] }
      (h.vals.length + 2) _tunnel.fresh hG rfl rfl polls
  refine ⟨{ m_next := h.vals.length + 1 },
    { vals := h.vals ++
        [{ m_store := Payload.init, m_get := Getter.forward (h.vals.length + 1),
           m_redir_enabled := true, m_store_set := true },
         { m_store := v, m_get := Getter.store, m_redir_enabled := false,
           m_store_set := true }],
      voids := h.voids,
      calls := h.calls ++ [Call.val h.vals.length v, Call.val (h.vals.length + 1) v] },
    ?_, { m_next := h.vals.length + 2 },
    { vals := h.vals ++
        [{ m_store := Payload.init, m_get := Getter.forward (h.vals.length + 1),
           m_redir_enabled := true, m_store_set := true },
         { m_store := v, m_get := Getter.then_val (h.vals.length + 2) f,
           m_redir_enabled := true, m_store_set := true },
         _tunnel.fresh],
      voids := h.voids,
      calls := h.calls ++ [Call.val h.vals.length v, Call.val (h.vals.length + 1) v] },
    ?_, rfl, hG, ?_, ?_, ?_⟩
  · simp [make_empty_future, future.get_future, future.new, _tunnel.fresh,
      _tunnel.redirect_nolock, future.set_value, _tunnel.set, mark_val,
      List.getElem_append_right]
  · simp [future.then_val, future.new, _tunnel.fresh, _tunnel.redirect_nolock,
      List.getElem_append_right]
  · simp [List.getElem_append_right]
  · intro polls
    simp [future.get, hw polls]
  · intro dt
    by_cases hdt : dt > 0
    · simp [future.wait_dt, _tunnel.wait_for, hdt, _tunnel.fresh, List.getElem_append_right]
    · simp [future.wait_dt, hdt, _tunnel.fresh, List.getElem_append_right]

/-- C11: no-payload source chaining. With `P` a fresh `promise<void>`,
`F = P.get_future()` and `G = F.then(f)` succeed, `P.set_value()` returns for every call
depth of at least three, and afterwards `G.get()` returns `f ()` at the first poll (so 7
when `f` is the constant 7). -/
theorem void_source_chaining {T : Type} [Payload T] (h : Heap T) (f : Unit → T)
    (depth polls : Nat) :
    ∃ F h1, future_void.get_future (future_void.new h).2 (future_void.new h).1 =
        Result.ok F h1 ∧
      ∃ G h2, future_void.then_val h1 F f = Result.ok G h2 ∧
        ∃ h3, future_void.set_value (depth + 3) h2 (future_void.new h).1 = Result.ok () h3 ∧
          future.get (polls + 1) h3 G = Result.ok (f ()) h3 := by
  refine ⟨{ m_next := h.voids.length + 1 },
    { h with voids := h.voids ++
        [{ (_tunnel_void.fresh : _tunnel_void T) with
            m_get := VoidGetter.forward (h.voids.length + 1), m_redir_enabled := true },
         _tunnel_void.fresh] }, ?_, ?_⟩
  · simp [future_void.get_future, future_void.new, _tunnel_void.fresh,
      _tunnel_void.redirect_nolock]
  refine ⟨{ m_next := h.vals.length },
    { vals := h.vals ++ [_tunnel.fresh],
      voids := h.voids ++
        [{ (_tunnel_void.fresh : _tunnel_void T) with
            m_get := VoidGetter.forward (h.voids.length + 1), m_redir_enabled := true },
         { (_tunnel_void.fresh : _tunnel_void T) with
            m_get := VoidGetter.then_val h.vals.length f, m_redir_enabled := true }],
      calls := h.calls }, ?_, ?_⟩
  · simp [future_void.then_val, future.new, _tunnel_void.fresh,
      _tunnel_void.redirect_nolock, List.getElem_append_right]
  simp [future_void.set_value, future_void.new, _tunnel_void.fresh, _tunnel.fresh,
    _tunnel_void.set, _tunnel.set, mark_val, mark_void, future.get, _tunnel.wait,
    List.getElem_append_right]

/-- C12: the code on the claim's scenario. With `P` a fresh promise, `F = P.get_future()`,
`G1 = F.then(f)` and then `G2 = F.then(g)` on the same `F`, both `then` calls return; after
`P.set_value(v)` the trace holds one invocation of the redirect of `F`, which delivered
`g v` to the cell of `G2`.  The cell of `G1` is still the default-constructed one: `f` was
not invoked, `G1.get()` does not return for any number of polls, and `G2.get()` returns
`g v`. -/
theorem first_continuation_lost_after_second_then {T : Type} [Payload T] (h : Heap T)
    (v : T) (f g : T → T) (depth polls : Nat) :
    ∃ F h1, future.get_future (future.new h).2 (future.new h).1 = Result.ok F h1 ∧
      ∃ G1 h2, future.then_val h1 F f = Result.ok G1 h2 ∧
        ∃ G2 h3, future.then_val h2 F g = Result.ok G2 h3 ∧
          ∃ h4, future.set_value (depth + 3) h3 (future.new h).1 v = Result.ok () h4 ∧
            h4.calls = h.calls ++
              [Call.val (future.new h).1.m_next v, Call.val F.m_next v,
               Call.val G2.m_next (g v)] ∧
            h4.vals[G1.m_next]? = some _tunnel.fresh ∧
            (∀ n, future.get n h4 G1 = Result.hang) ∧
            future.get (polls + 1) h4 G2 = Result.ok (g v) h4 := by
  refine ⟨{ m_next := h.vals.length + 1 },
    { h with vals := h.vals ++
        [{ (_tunnel.fresh : _tunnel T) with
            m_get := Getter.forward (h.vals.length + 1), m_redir_enabled := true },
         _tunnel.fresh] }, ?_, ?_⟩
  · simp [future.get_future, future.new, _tunnel.fresh, _tunnel.redirect_nolock]
  refine ⟨{ m_next := h.vals.length + 2 },
    { h with vals := h.vals ++
        [{ (_tunnel.fresh : _tunnel T) with
            m_get := Getter.forward (h.vals.length + 1), m_redir_enabled := true },
         { (_tunnel.fresh : _tunnel T) with
            m_get := Getter.then_val (h.vals.length + 2) f, m_redir_enabled := true },
         _tunnel.fresh] }, ?_, ?_⟩
  · simp [future.then_val, future.new, _tunnel.fresh, _tunnel.redirect_nolock,
      List.getElem_append_right]
  refine ⟨{ m_next := h.vals.length + 3 },
    { h with vals := h.vals ++
        [{ (_tunnel.fresh : _tunnel T) with
            m_get := Getter.forward (h.vals.length + 1), m_redir_enabled := true },
         { (_tunnel.fresh : _tunnel T) with
            m_get := Getter.then_val (h.vals.length + 3) g, m_redir_enabled := true },
         _tunnel.fresh, _tunnel.fresh] }, ?_, ?_⟩
  · simp [future.then_val, future.new, _tunnel.fresh, _tunnel.redirect_nolock,
      List.getElem_append_right]
  have hG1 : (h.vals ++
      [{ m_store := Payload.init, m_get := Getter.forward (h.vals.length + 1),
         m_redir_enabled := true, m_store_set := true },
       { m_store := Payload.init, m_get := Getter.then_val (h.vals.length + 3) g,
         m_redir_enabled := true, m_store_set := true },
       (_tunnel.fresh : _tunnel T),
       { m_store := g v, m_get := Getter.store, m_redir_enabled := false,
         m_store_set := true }])[h.vals.length + 2]? = some _tunnel.fresh := by
    simp [List.getElem_append_right]
  have hw : ∀ n, _tunnel.wait n
      { vals := h.vals ++
          [{ m_store := Payload.init, m_get := Getter.forward (h.vals.length + 1),
             m_redir_enabled := true, m_store_set := true },
           { m_store := Payload.init, m_get := Getter.then_val (h.vals.length + 3) g,
             m_redir_enabled := true, m_store_set := true },
           _tunnel.fresh,
           { m_store := g v, m_get := Getter.store, m_redir_enabled := false,
             m_store_set := true }],
        voids := h.voids,
        calls := h.calls ++ [Call.val h.vals.length v, Call.val (h.vals.length + 1) v,
          Call.val (h.vals.length + 3) (g v)] }
      (h.vals.length + 2) = Result.hang :=
    fun n => tunnel_wait_hangs
      { vals := h.vals ++
          [{ m_store := Payload.init, m_get := Getter.forward (h.vals.length + 1),
             m_redir_enabled := true, m_store_set := true },
           { m_store := Payload.init, m_get := Getter.then_val (h.vals.length + 3) g,
             m_redir_enabled := true, m_store_set := true },
           _tunnel.fresh,
           { m_store := g v, m_get := Getter.store, m_redir_enabled := false,
             m_store_set := true }],
        voids := h.voids,
        calls := h.calls ++ [Call.val h.vals.length v, Call.val (h.vals.length + 1) v,
          Call.val (h.vals.length + 3) (g v)] }
      (h.vals.length + 2) _tunnel.fresh hG1 rfl rfl n
  refine ⟨
    { vals := h.vals ++
        [{ m_store := Payload.init, m_get := Getter.forward (h.vals.length + 1),
           m_redir_enabled := true, m_store_set := true },
         { m_store := Payload.init, m_get := Getter.then_val (h.vals.length + 3) g,
           m_redir_enabled := true, m_store_set := true },
         _tunnel.fresh,
         { m_store := g v, m_get := Getter.store, m_redir_enabled := false,
           m_store_set := true }],
      voids := h.voids,
      calls := h.calls ++ [Call.val h.vals.length v, Call.val (h.vals.length + 1) v,
        Call.val (h.vals.length + 3) (g v)] }, ?_, ?_, hG1, ?_, ?_⟩
  · simp [future.set_value, future.new, _tunnel.fresh, _tunnel.set, mark_val,
      List.getElem_append_right]
  · simp [future.new]
  · intro n
    simp [future.get, hw n]
  · simp [future.get, _tunnel.wait, List.getElem_append_right]

/-- C15: repeated delivery. With `P` a fresh promise and `F = P.get_future()`, both
`P.set_value(v1)` and `P.set_value(v2)` return (call depth at least two), each invokes
the redirect of the cell of `P` once (and through it the store function of the cell of
`F` once), and afterwards `F.get()` returns `v2`. -/
theorem repeated_set_value_latest_wins {T : Type} [Payload T] (h : Heap T) (v1 v2 : T)
    (depth polls : Nat) :
    ∃ F h1, future.get_future (future.new h).2 (future.new h).1 = Result.ok F h1 ∧
      ∃ h2, future.set_value (depth + 2) h1 (future.new h).1 v1 = Result.ok () h2 ∧
        h2.calls = h.calls ++ [Call.val (future.new h).1.m_next v1, Call.val F.m_next v1] ∧
        ∃ h3, future.set_value (depth + 2) h2 (future.new h).1 v2 = Result.ok () h3 ∧
          h3.calls = h2.calls ++
            [Call.val (future.new h).1.m_next v2, Call.val F.m_next v2] ∧
          future.get (polls + 1) h3 F = Result.ok v2 h3 := by
  refine ⟨{ m_next := h.vals.length + 1 },
    { h with vals := h.vals ++
        [{ (_tunnel.fresh : _tunnel T) with
            m_get := Getter.forward (h.vals.length + 1), m_redir_enabled := true },
         _tunnel.fresh] }, ?_, ?_⟩
  · simp [future.get_future, future.new, _tunnel.fresh, _tunnel.redirect_nolock]
  refine ⟨
    { vals := h.vals ++
        [{ m_store := Payload.init, m_get := Getter.forward (h.vals.length + 1),
           m_redir_enabled := true, m_store_set := true },
         { m_store := v1, m_get := Getter.store, m_redir_enabled := false,
           m_store_set := true }],
      voids := h.voids,
      calls := h.calls ++ [Call.val h.vals.length v1, Call.val (h.vals.length + 1) v1] },
    ?_, ?_, ?_⟩
  · simp [future.set_value, future.new, _tunnel.fresh, _tunnel.set, mark_val,
      List.getElem_append_right]
  · simp [future.new]
  refine ⟨
    { vals := h.vals ++
        [{ m_store := Payload.init, m_get := Getter.forward (h.vals.length + 1),
           m_redir_enabled := true, m_store_set := true },
         { m_store := v2, m_get := Getter.store, m_redir_enabled := false,
           m_store_set := true }],
      voids := h.voids,
      calls := h.calls ++ [Call.val h.vals.length v1, Call.val (h.vals.length + 1) v1,
        Call.val h.vals.length v2, Call.val (h.vals.length + 1) v2] },
    ?_, ?_, ?_⟩
  · simp [future.set_value, future.new, _tunnel.set, mark_val, List.getElem_append_right]
  · simp [future.new]
  · simp [future.get, _tunnel.wait, List.getElem_append_right]

/-- When `_tunnel<T>::wait()` returns, the heap is the one it started from and the cell
is set and not redirected. -/
theorem tunnel_wait_ok_inv {T : Type} (polls : Nat) (h h1 : Heap T) (a : Nat)
    (hw : _tunnel.wait polls h a = Result.ok () h1) :
    h1 = h ∧ ∃ c, h.vals[a]? = some c ∧ c.m_store_set = true ∧ c.m_redir_enabled = false := by
  induction polls with
  | zero => simp [_tunnel.wait] at hw
  | succ n ih =>
    simp only [_tunnel.wait] at hw
    cases hc : h.vals[a]? with
    | none => simp [hc] at hw
    | some c =>
      simp only [hc] at hw
      cases hr : c.m_redir_enabled with
      | true => simp [hr] at hw
      | false =>
        cases hs : c.m_store_set with
        | true =>
          simp [hr, hs] at hw
          exact ⟨hw.symm, c, rfl, hs, hr⟩
        | false =>
          simp [hr, hs] at hw
          have := ih hw
          simpa [hc] using this

/-- When `_tunnel<void>::wait()` returns, the heap is the one it started from and the
cell is set and not redirected. -/
theorem tunnel_void_wait_ok_inv {T : Type} (polls : Nat) (h h1 : Heap T) (a : Nat)
    (hw : _tunnel_void.wait polls h a = Result.ok () h1) :
    h1 = h ∧
      ∃ c, h.voids[a]? = some c ∧ c.m_store_set = true ∧ c.m_redir_enabled = false := by
  induction polls with
  | zero => simp [_tunnel_void.wait] at hw
  | succ n ih =>
    simp only [_tunnel_void.wait] at hw
    cases hc : h.voids[a]? with
    | none => simp [hc] at hw
    | some c =>
      simp only [hc] at hw
      cases hr : c.m_redir_enabled with
      | true => simp [hr] at hw
      | false =>
        cases hs : c.m_store_set with
        | true =>
          simp [hr, hs] at hw
          exact ⟨hw.symm, c, rfl, hs, hr⟩
        | false =>
          simp [hr, hs] at hw
          have := ih hw
          simpa [hc] using this

/-- C17: the untimed `wait()` never returns `false`. For every number of polls, whenever
`wait()` returns without throwing, the boolean is `true`, the heap is unchanged, and the
cell is set and not redirected; conversely on a cell that is set and not redirected
`wait()` returns `true` at the first poll.  Payload and no-payload futures. -/
theorem untimed_wait_returns_only_true {T : Type} (h : Heap T) (polls : Nat) :
    (∀ (F : future) (b : Bool) (h1 : Heap T), future.wait polls h F = Result.ok b h1 →
      b = true ∧ h1 = h ∧
        ∃ c, h.vals[F.m_next]? = some c ∧ c.m_store_set = true ∧
          c.m_redir_enabled = false) ∧
    (∀ (F : future) (c : _tunnel T), h.vals[F.m_next]? = some c → c.m_store_set = true →
      c.m_redir_enabled = false → future.wait (polls + 1) h F = Result.ok true h) ∧
    (∀ (F : future_void) (b : Bool) (h1 : Heap T),
      future_void.wait polls h F = Result.ok b h1 →
        b = true ∧ h1 = h ∧
          ∃ c, h.voids[F.m_next]? = some c ∧ c.m_store_set = true ∧
            c.m_redir_enabled = false) ∧
    (∀ (F : future_void) (c : _tunnel_void T), h.voids[F.m_next]? = some c →
      c.m_store_set = true → c.m_redir_enabled = false →
        future_void.wait (polls + 1) h F = Result.ok true h) := by
  refine ⟨?_, ?_, ?_, ?_⟩
  · intro F b h1 hw
    simp only [future.wait] at hw
    cases hr : _tunnel.wait polls h F.m_next with
    | ok u h2 =>
      obtain ⟨e, c, hc, hs, hre⟩ := tunnel_wait_ok_inv polls h h2 F.m_next hr
      subst e
      simp [hr, hc] at hw
      exact ⟨by rw [← hw.1, hs], hw.2.symm, c, hc, hs, hre⟩
    | throw e h2 => simp [hr] at hw
    | hang => simp [hr] at hw
    | fault => simp [hr] at hw
  · intro F c hc hs hr
    simp [future.wait, _tunnel.wait, hc, hs, hr]
  · intro F b h1 hw
    simp only [future_void.wait] at hw
    cases hr : _tunnel_void.wait polls h F.m_next with
    | ok u h2 =>
      obtain ⟨e, c, hc, hs, hre⟩ := tunnel_void_wait_ok_inv polls h h2 F.m_next hr
      subst e
      simp [hr, hc] at hw
      exact ⟨by rw [← hw.1, hs], hw.2.symm, c, hc, hs, hre⟩
    | throw e h2 => simp [hr] at hw
    | hang => simp [hr] at hw
    | fault => simp [hr] at hw
  · intro F c hc hs hr
    simp [future_void.wait, _tunnel_void.wait, hc, hs, hr]

/-- Witness for C17: the future of `make_empty_future(5)` on the empty heap; its
`wait()` returns, and the returned boolean is `true`. -/
theorem untimed_wait_returns_only_true_witness :
    future.wait 1
        ({ vals := [{ m_store := 0, m_get := Getter.forward 1, m_redir_enabled := true,
                      m_store_set := true },
                    { m_store := 5, m_get := Getter.store, m_redir_enabled := false,
                      m_store_set := true }],
           voids := [], calls := [Call.val 0 5, Call.val 1 5] } : Heap Nat)
        { m_next := 1 } =
      Result.ok true
        { vals := [{ m_store := 0, m_get := Getter.forward 1, m_redir_enabled := true,
                     m_store_set := true },
                   { m_store := 5, m_get := Getter.store, m_redir_enabled := false,
                     m_store_set := true }],
          voids := [], calls := [Call.val 0 5, Call.val 1 5] } ∧
    (true = true ∧
      ({ vals := [{ m_store := 0, m_get := Getter.forward 1, m_redir_enabled := true,
                    m_store_set := true },
                  { m_store := 5, m_get := Getter.store, m_redir_enabled := false,
                    m_store_set := true }],
         voids := [], calls := [Call.val 0 5, Call.val 1 5] } : Heap Nat) =
      { vals := [{ m_store := 0, m_get := Getter.forward 1, m_redir_enabled := true,
                   m_store_set := true },
                 { m_store := 5, m_get := Getter.store, m_redir_enabled := false,
                   m_store_set := true }],
        voids := [], calls := [Call.val 0 5, Call.val 1 5] }) :=
  ⟨rfl,
   let r := (untimed_wait_returns_only_true
      ({ vals := [{ m_store := 0, m_get := Getter.forward 1, m_redir_enabled := true,
                    m_store_set := true },
                  { m_store := 5, m_get := Getter.store, m_redir_enabled := false,
                    m_store_set := true }],
         voids := [], calls := [Call.val 0 5, Call.val 1 5] } : Heap Nat) 1).1
      { m_next := 1 } true _ rfl
   ⟨r.1, r.2.1⟩⟩

/-- Building a chain on a default-constructed tunnel that is the last of the heap. -/
theorem then_all_builds_chain {T : Type} [Payload T] (fs : List (T → T)) :
    ∀ (pre : List (_tunnel T)) (voids : List (_tunnel_void T)) (calls : List (Call T)),
      future.then_all fs { vals := pre ++ [_tunnel.fresh], voids := voids, calls := calls }
          { m_next := pre.length } =
        Result.ok { m_next := pre.length + fs.length }
          { vals := pre ++ chain_cells fs pre.length, voids := voids, calls := calls } := by
  induction fs with
  | nil => intro pre voids calls; simp [future.then_all, chain_cells]
  | cons f fs ih =>
    intro pre voids calls
    have hstep := ih
      (pre ++ [{ m_store := Payload.init, m_get := Getter.then_val (pre.length + 1) f,
                 m_redir_enabled := true, m_store_set := false }])
      voids calls
    simp only [List.length_append, List.length_singleton, List.append_assoc,
      List.singleton_append] at hstep
    simp [future.then_all, future.then_val, future.new, _tunnel.fresh,
      _tunnel.redirect_nolock, chain_cells, List.getElem_append_right] at hstep ⊢
    rw [hstep]
    simp [Nat.add_assoc, Nat.add_comm 1]

/-- Delivering `v` into the first tunnel of a chain that ends the heap. -/
theorem set_runs_chain {T : Type} [Payload T] (fs : List (T → T)) :
    ∀ (pre : List (_tunnel T)) (voids : List (_tunnel_void T)) (calls : List (Call T))
      (v : T) (depth : Nat),
      _tunnel.set (depth + fs.length + 1)
          { vals := pre ++ chain_cells fs pre.length, voids := voids, calls := calls }
          pre.length v =
        Result.ok ()
          { vals := pre ++ chain_cells_set fs pre.length v, voids := voids,
            calls := calls ++ chain_calls fs pre.length v } := by
  induction fs with
  | nil =>
    intro pre voids calls v depth
    simp [_tunnel.set, chain_cells, chain_cells_set, chain_calls, _tunnel.fresh, mark_val]
  | cons f fs ih =>
    intro pre voids calls v depth
    have hstep := ih
      (pre ++ [{ m_store := Payload.init, m_get := Getter.then_val (pre.length + 1) f,
                 m_redir_enabled := true, m_store_set := false }])
      voids (calls ++ [Call.val pre.length v]) (f v) depth
    simp only [List.length_append, List.length_singleton, List.append_assoc,
      List.singleton_append] at hstep
    have hlook : ∀ (c : _tunnel T) (rest : List (_tunnel T)),
        (pre ++ c :: rest)[pre.length]? = some c := by
      intro c rest
      simp [List.getElem_append_right]
    simp only [List.length_cons, chain_cells, chain_cells_set, chain_calls]
    rw [_tunnel.set]
    rw [Nat.add_assoc] at hstep
    simp only [hlook, hstep, mark_val]
    simp

/-- The last tunnel of a chain that `v` went through stores the composed value. -/
theorem chain_cells_set_last {T : Type} [Payload T] (fs : List (T → T)) :
    ∀ (pre : List (_tunnel T)) (v : T),
      (pre ++ chain_cells_set fs pre.length v)[pre.length + fs.length]? =
        some { m_store := fs.foldl (fun x f => f x) v, m_get := Getter.store,
               m_redir_enabled := false, m_store_set := true } := by
  induction fs with
  | nil => intro pre v; simp [chain_cells_set, List.getElem_append_right]
  | cons f fs ih =>
    intro pre v
    have hstep := ih
      (pre ++ [{ m_store := Payload.init, m_get := Getter.then_val (pre.length + 1) f,
                 m_redir_enabled := true, m_store_set := true }])
      (f v)
    simp only [List.length_append, List.length_singleton, List.append_assoc,
      List.singleton_append] at hstep
    simp only [chain_cells_set, List.length_cons, List.foldl_cons]
    rw [← hstep]
    congr 1
    omega

/-- Every tunnel of a chain that `v` went through is marked set. -/
theorem chain_cells_set_all {T : Type} [Payload T] (fs : List (T → T)) :
    ∀ (base : Nat) (v : T),
      (chain_cells_set fs base v).all (fun c => c.m_store_set) = true := by
  induction fs with
  | nil => intro base v; simp [chain_cells_set]
  | cons f fs ih => intro base v; simp [chain_cells_set, ih]

/-- The trace of a chain lists its tunnels in address order, each once, with the values
obtained by applying the functions one after the other. -/
theorem chain_calls_eq_zipWith {T : Type} (fs : List (T → T)) :
    ∀ (base : Nat) (v : T),
      chain_calls fs base v =
        List.zipWith Call.val (List.range' base (fs.length + 1))
          (List.scanl (fun x f => f x) v fs) := by
  induction fs with
  | nil => intro base v; simp [chain_calls, List.range']
  | cons f fs ih =>
    intro base v
    simp [chain_calls, ih, List.range'_succ, List.scanl_cons]

/-- C13: transitive synchronous delivery along a chain of any length. For every list
`fs = [f1, ..., fn]` (possibly empty), with `P` a fresh promise, `F = P.get_future()` and
`L = F.then(f1)...then(fn)` succeed, and `P.set_value(v)` returns for every call depth of
at least `n + 2`.  When it has returned, the trace holds the tunnels of the chain in
order, each invoked once: the cell of `P` with `v`, then the tunnel holding `f1` with `v`,
the tunnel holding `f2` with `f1 v`, and so on, the last tunnel storing
`fn (... (f1 v))`; every tunnel of the chain is marked set; and `L.get()` returns
`fn (... (f1 v))` at the first poll. -/
theorem chain_delivery_any_length {T : Type} [Payload T] (h : Heap T) (v : T)
    (fs : List (T → T)) (depth polls : Nat) :
    ∃ F h1, future.get_future (future.new h).2 (future.new h).1 = Result.ok F h1 ∧
      ∃ L h2, future.then_all fs h1 F = Result.ok L h2 ∧
        ∃ h3, future.set_value (depth + fs.length + 2) h2 (future.new h).1 v =
            Result.ok () h3 ∧
          h3.calls = h.calls ++
            List.zipWith Call.val (List.range' h.vals.length (fs.length + 2))
              (v :: List.scanl (fun x f => f x) v fs) ∧
          h3.vals = h.vals ++
            { m_store := Payload.init, m_get := Getter.forward F.m_next,
              m_redir_enabled := true, m_store_set := true } ::
              chain_cells_set fs F.m_next v ∧
          (h3.vals.drop h.vals.length).all (fun c => c.m_store_set) = true ∧
          future.get (polls + 1) h3 L = Result.ok (fs.foldl (fun x f => f x) v) h3 := by
  refine ⟨{ m_next := h.vals.length + 1 },
    { h with vals := h.vals ++
        [{ (_tunnel.fresh : _tunnel T) with
            m_get := Getter.forward (h.vals.length + 1), m_redir_enabled := true },
         _tunnel.fresh] }, ?_, ?_⟩
  · simp [future.get_future, future.new, _tunnel.fresh, _tunnel.redirect_nolock]
  have hbuild := then_all_builds_chain fs
    (h.vals ++ [{ m_store := Payload.init, m_get := Getter.forward (h.vals.length + 1),
                  m_redir_enabled := true, m_store_set := false }])
    h.voids h.calls
  have hrun := set_runs_chain fs
    (h.vals ++ [{ m_store := Payload.init, m_get := Getter.forward (h.vals.length + 1),
                  m_redir_enabled := true, m_store_set := false }])
    h.voids (h.calls ++ [Call.val h.vals.length v]) v depth
  have hlast := chain_cells_set_last fs
    (h.vals ++ [{ m_store := Payload.init, m_get := Getter.forward (h.vals.length + 1),
                  m_redir_enabled := true, m_store_set := true }])
    v
  simp only [List.length_append, List.length_singleton, List.append_assoc,
    List.singleton_append] at hbuild hrun hlast
  refine ⟨{ m_next := h.vals.length + 1 + fs.length },
    { vals := h.vals ++
        { m_store := Payload.init, m_get := Getter.forward (h.vals.length + 1),
          m_redir_enabled := true, m_store_set := false } ::
          chain_cells fs (h.vals.length + 1),
      voids := h.voids, calls := h.calls }, ?_, ?_⟩
  · simpa [_tunnel.fresh] using hbuild
  refine ⟨
    { vals := h.vals ++
        { m_store := Payload.init, m_get := Getter.forward (h.vals.length + 1),
          m_redir_enabled := true, m_store_set := true } ::
          chain_cells_set fs (h.vals.length + 1) v,
      voids := h.voids,
      calls := h.calls ++ Call.val h.vals.length v ::
        chain_calls fs (h.vals.length + 1) v }, ?_, ?_, rfl, ?_, ?_⟩
  · have hlook : ∀ (c : _tunnel T) (rest : List (_tunnel T)),
        (h.vals ++ c :: rest)[h.vals.length]? = some c := by
      intro c rest
      simp [List.getElem_append_right]
    simp only [future.set_value, future.new]
    rw [_tunnel.set]
    simp only [hlook, hrun, mark_val]
    simp
  · simp [chain_calls_eq_zipWith, List.range'_succ]
  · simp [chain_cells_set_all]
  · simp [future.get, _tunnel.wait, hlast]

/-- The two `set` functions are the function `deliver` on the two kinds of target. -/
theorem set_eq_deliver {T : Type} (depth : Nat) :
    (∀ (h : Heap T) (a : Nat) (v : T),
      _tunnel.set depth h a v = deliver depth h (Target.val a v)) ∧
    (∀ (h : Heap T) (a : Nat),
      _tunnel_void.set depth h a = deliver depth h (Target.void a)) := by
  induction depth with
  | zero => exact ⟨fun _ _ _ => rfl, fun _ _ => rfl⟩
  | succ d ih =>
    constructor
    · intro h a v
      rw [_tunnel.set, deliver]
      simp only [hop, Target.call, mark]
      cases hc : h.vals[a]? with
      | none => rfl
      | some c =>
        cases hg : c.m_get <;> simp [hg, ih.1, ih.2]
    · intro h a
      rw [_tunnel_void.set, deliver]
      simp only [hop, Target.call, mark]
      cases hc : h.voids[a]? with
      | none => rfl
      | some c =>
        cases hg : c.m_get <;> simp [hg, ih.1, ih.2]

/-- `set_keeps` is reflexive. -/
theorem set_keeps_refl {T : Type} (h : Heap T) : set_keeps h h :=
  ⟨fun _ c hc => ⟨c, hc, rfl, rfl, fun _ => rfl⟩, fun _ c hc => ⟨c, hc, rfl, rfl⟩⟩

/-- `set_keeps` is transitive. -/
theorem set_keeps_trans {T : Type} {h1 h2 h3 : Heap T} (k12 : set_keeps h1 h2)
    (k23 : set_keeps h2 h3) : set_keeps h1 h3 := by
  constructor
  · intro x c hc
    obtain ⟨c1, hc1, g1, r1, s1⟩ := k12.1 x c hc
    obtain ⟨c2, hc2, g2, r2, s2⟩ := k23.1 x c1 hc1
    refine ⟨c2, hc2, g2.trans g1, r2.trans r1, fun hne => ?_⟩
    rw [s2 (by rw [g1]; exact hne), s1 hne]
  · intro x c hc
    obtain ⟨c1, hc1, g1, r1⟩ := k12.2 x c hc
    obtain ⟨c2, hc2, g2, r2⟩ := k23.2 x c1 hc1
    exact ⟨c2, hc2, g2.trans g1, r2.trans r1⟩

/-- Overwriting the `_tunnel<T>` at `a` with a tunnel that has the same `m_get`,
`m_redir_enabled` and, unless `m_get` is the store function, the same `m_store`. -/
theorem set_keeps_update_val {T : Type} (h : Heap T) (a : Nat) (c c1 : _tunnel T)
    (calls : List (Call T)) (hc : h.vals[a]? = some c) (hg : c1.m_get = c.m_get)
    (hr : c1.m_redir_enabled = c.m_redir_enabled)
    (hs : c.m_get ≠ Getter.store → c1.m_store = c.m_store) :
    set_keeps h { vals := h.vals.set a c1, voids := h.voids, calls := calls } := by
  have hlt := lookup_lt hc
  constructor
  · intro x cx hx
    by_cases hxa : a = x
    · subst hxa
      rw [hc] at hx
      cases hx
      exact ⟨c1, by simp [hlt], hg, hr, hs⟩
    · exact ⟨cx, by simp [List.getElem?_set, hxa, hx], rfl, rfl, fun _ => rfl⟩
  · intro x cx hx
    exact ⟨cx, hx, rfl, rfl⟩

/-- Overwriting the `_tunnel<void>` at `a` with a tunnel that has the same `m_get` and
`m_redir_enabled`. -/
theorem set_keeps_update_void {T : Type} (h : Heap T) (a : Nat) (c c1 : _tunnel_void T)
    (calls : List (Call T)) (hc : h.voids[a]? = some c) (hg : c1.m_get = c.m_get)
    (hr : c1.m_redir_enabled = c.m_redir_enabled) :
    set_keeps h { vals := h.vals, voids := h.voids.set a c1, calls := calls } := by
  have hlt := lookup_lt hc
  constructor
  · intro x cx hx
    exact ⟨cx, hx, rfl, rfl, fun _ => rfl⟩
  · intro x cx hx
    by_cases hxa : a = x
    · subst hxa
      rw [hc] at hx
      cases hx
      exact ⟨c1, by simp [hlt], hg, hr⟩
    · exact ⟨cx, by simp [List.getElem?_set, hxa, hx], rfl, rfl⟩

/-- Marking a tunnel set: the call returns, the trace is unchanged, and the heap keeps
its tunnels. -/
theorem mark_final {T : Type} (h2 : Heap T) (t : Target T) (h3 : Heap T)
    (hf : (mark h2 t).final = some h3) :
    mark h2 t = Result.ok () h3 ∧ h3.calls = h2.calls ∧ set_keeps h2 h3 := by
  cases t with
  | val a v =>
    simp only [mark, mark_val] at hf ⊢
    cases hc : h2.vals[a]? with
    | none => simp [hc, Result.final] at hf
    | some c =>
      simp only [hc, Result.final, Option.some.injEq] at hf ⊢
      subst hf
      exact ⟨rfl, rfl, set_keeps_update_val h2 a c _ _ hc rfl rfl (fun _ => rfl)⟩
  | void a =>
    simp only [mark, mark_void] at hf ⊢
    cases hc : h2.voids[a]? with
    | none => simp [hc, Result.final] at hf
    | some c =>
      simp only [hc, Result.final, Option.some.injEq] at hf ⊢
      subst hf
      exact ⟨rfl, rfl, set_keeps_update_void h2 a c _ _ hc rfl rfl⟩

/-- A body of `m_get` that finishes in its own tunnel keeps the trace and the tunnels. -/
theorem hop_stop_keeps {T : Type} (h1 : Heap T) (t : Target T) (h2 : Heap T)
    (hh : hop h1 t = some (Hop.stop h2)) : h2.calls = h1.calls ∧ set_keeps h1 h2 := by
  cases t with
  | val a v =>
    simp only [hop] at hh
    cases hc : h1.vals[a]? with
    | none => simp [hc] at hh
    | some c =>
      cases hg : c.m_get <;> simp [hc, hg] at hh
      subst hh
      exact ⟨rfl, set_keeps_update_val h1 a c _ _ hc hg.symm rfl (fun hne => absurd hg hne)⟩
  | void a =>
    simp only [hop] at hh
    cases hc : h1.voids[a]? with
    | none => simp [hc] at hh
    | some c =>
      cases hg : c.m_get <;> simp [hc, hg] at hh
      subst hh
      exact ⟨rfl, set_keeps_refl h1⟩

/-- Whenever `deliver` leaves a heap it has returned normally (it never throws), the heap
keeps its tunnels, and the trace grew by the invocation of the target followed by the
invocations made by the body of its `m_get`. -/
theorem deliver_final {T : Type} (depth : Nat) :
    ∀ (h : Heap T) (t : Target T) (h3 : Heap T), (deliver depth h t).final = some h3 →
      deliver depth h t = Result.ok () h3 ∧ set_keeps h h3 ∧
        ∃ l, h3.calls = h.calls ++ t.call :: l := by
  induction depth with
  | zero => intro h t h3 hf; simp [deliver, Result.final] at hf
  | succ d ih =>
    intro h t h3 hf
    rw [deliver] at hf ⊢
    cases hh : hop { vals := h.vals, voids := h.voids, calls := h.calls ++ [t.call] } t with
    | none => simp [hh, Result.final] at hf
    | some hp =>
      cases hp with
      | stop h2 =>
        simp only [hh] at hf ⊢
        obtain ⟨e, hcalls, k⟩ := mark_final h2 t h3 hf
        obtain ⟨hc2, k2⟩ := hop_stop_keeps _ t h2 hh
        refine ⟨e, set_keeps_trans k2 k, [], ?_⟩
        rw [hcalls, hc2]
      | next t1 =>
        simp only [hh] at hf ⊢
        cases hr : deliver d
            { vals := h.vals, voids := h.voids, calls := h.calls ++ [t.call] } t1 with
        | ok u h2 =>
          simp only [hr] at hf ⊢
          obtain ⟨_, k1, l, hl⟩ := ih _ t1 h2 (by rw [hr]; rfl)
          obtain ⟨e, hcalls, k⟩ := mark_final h2 t h3 hf
          refine ⟨e, set_keeps_trans k1 k, t1.call :: l, ?_⟩
          rw [hcalls, hl]
          simp
        | throw e h2 =>
          obtain ⟨habs, _⟩ := ih _ t1 h2 (by rw [hr]; rfl)
          rw [hr] at habs
          cases habs
        | hang => simp [hr, Result.final] at hf
        | fault => simp [hr, Result.final] at hf

/-- The body of `m_get` of a tunnel depends on the tunnels only: on two heaps with the
same tunnels, two targets on the same tunnel both fault, both finish, or both call `set`
on the same next tunnel. -/
theorem hop_same_node {T : Type} (h1 hh1 : Heap T) (t tt : Target T)
    (hv : hh1.vals = h1.vals) (hvo : hh1.voids = h1.voids)
    (hn : tt.call.node = t.call.node) :
    (hop h1 t = none → hop hh1 tt = none) ∧
    (∀ h2, hop h1 t = some (Hop.stop h2) → ∃ hh2, hop hh1 tt = some (Hop.stop hh2)) ∧
    (∀ t1, hop h1 t = some (Hop.next t1) →
      ∃ tt1, hop hh1 tt = some (Hop.next tt1) ∧ tt1.call.node = t1.call.node) := by
  cases t with
  | val a v =>
    cases tt with
    | val b w =>
      simp only [Target.call, Call.node, Sum.inl.injEq] at hn
      subst hn
      simp only [hop, hv]
      cases hc : h1.vals[b]? with
      | none => simp
      | some c => cases hg : c.m_get <;> simp [hg, Target.call, Call.node]
    | void b => simp [Target.call, Call.node] at hn
  | void a =>
    cases tt with
    | val b w => simp [Target.call, Call.node] at hn
    | void b =>
      simp only [Target.call, Call.node, Sum.inr.injEq] at hn
      subst hn
      simp only [hop, hvo]
      cases hc : h1.voids[b]? with
      | none => simp
      | some c => cases hg : c.m_get <;> simp [hg, Target.call, Call.node]

/-- The number of `m_get` invocations of a returning `deliver` depends only on the
tunnels and on the tunnel it starts from, not on the depth bound, the trace so far or the
value. -/
theorem deliver_trace_length {T : Type} (depth : Nat) :
    ∀ (d1 : Nat) (h hh : Heap T) (t tt : Target T) (h3 hh3 : Heap T),
      hh.vals = h.vals → hh.voids = h.voids → tt.call.node = t.call.node →
      deliver depth h t = Result.ok () h3 → deliver d1 hh tt = Result.ok () hh3 →
      ∃ n, h3.calls.length = h.calls.length + n ∧
        hh3.calls.length = hh.calls.length + n := by
  induction depth with
  | zero => intro d1 h hh t tt h3 hh3 _ _ _ hd _; simp [deliver] at hd
  | succ d ih =>
    intro d1 h hh t tt h3 hh3 hv hvo hn hd hdd
    cases d1 with
    | zero => simp [deliver] at hdd
    | succ d1 =>
      rw [deliver] at hd hdd
      obtain ⟨hnone, hstop, hnext⟩ := hop_same_node
        { vals := h.vals, voids := h.voids, calls := h.calls ++ [t.call] }
        { vals := hh.vals, voids := hh.voids, calls := hh.calls ++ [tt.call] }
        t tt hv hvo hn
      cases hh1 : hop { vals := h.vals, voids := h.voids, calls := h.calls ++ [t.call] } t with
      | none => simp [hh1] at hd
      | some hp =>
        cases hp with
        | stop h2 =>
          obtain ⟨hh2, hhh2⟩ := hstop h2 hh1
          simp only [hh1] at hd
          simp only [hhh2] at hdd
          obtain ⟨_, c1, _⟩ := mark_final h2 t h3 (by rw [hd]; rfl)
          obtain ⟨_, c2, _⟩ := mark_final hh2 tt hh3 (by rw [hdd]; rfl)
          obtain ⟨c3, _⟩ := hop_stop_keeps _ t h2 hh1
          obtain ⟨c4, _⟩ := hop_stop_keeps _ tt hh2 hhh2
          refine ⟨1, ?_, ?_⟩
          · rw [c1, c3]; simp
          · rw [c2, c4]; simp
        | next t1 =>
          obtain ⟨tt1, htt1, hn1⟩ := hnext t1 hh1
          simp only [hh1] at hd
          simp only [htt1] at hdd
          cases hr : deliver d
              { vals := h.vals, voids := h.voids, calls := h.calls ++ [t.call] } t1 with
          | ok u h2 =>
            cases hrr : deliver d1
                { vals := hh.vals, voids := hh.voids, calls := hh.calls ++ [tt.call] }
                tt1 with
            | ok uu hh2 =>
              simp only [hr] at hd
              simp only [hrr] at hdd
              obtain ⟨_, c1, _⟩ := mark_final h2 t h3 (by rw [hd]; rfl)
              obtain ⟨_, c2, _⟩ := mark_final hh2 tt hh3 (by rw [hdd]; rfl)
              obtain ⟨n, e1, e2⟩ := ih d1
                { vals := h.vals, voids := h.voids, calls := h.calls ++ [t.call] }
                { vals := hh.vals, voids := hh.voids, calls := hh.calls ++ [tt.call] }
                t1 tt1 h2 hh2 hv hvo hn1 hr hrr
              simp only [List.length_append, List.length_singleton] at e1 e2
              refine ⟨n + 1, ?_, ?_⟩
              · rw [c1, e1]; omega
              · rw [c2, e2]; omega
            | throw e hh2 => simp [hrr] at hdd
            | hang => simp [hrr] at hdd
            | fault => simp [hrr] at hdd
          | throw e h2 => simp [hr] at hd
          | hang => simp [hr] at hd
          | fault => simp [hr] at hd

/-- Every entry of the trace written by a returning `deliver` starts a `deliver` of its
own, on the same tunnels, that returns and writes the rest of the trace. -/
theorem deliver_visits {T : Type} (depth : Nat) :
    ∀ (h : Heap T) (t : Target T) (h3 : Heap T), deliver depth h t = Result.ok () h3 →
      ∃ l, h3.calls = h.calls ++ l ∧
        ∀ (i : Nat) (c : Call T), l[i]? = some c →
          ∃ (d1 : Nat) (hm hm3 : Heap T) (tm : Target T),
            tm.call = c ∧ hm.vals = h.vals ∧ hm.voids = h.voids ∧
            deliver d1 hm tm = Result.ok () hm3 ∧
            hm3.calls.length + i = hm.calls.length + l.length := by
  induction depth with
  | zero => intro h t h3 hd; simp [deliver] at hd
  | succ d ih =>
    intro h t h3 hd
    obtain ⟨_, _, l, hl⟩ := deliver_final (d + 1) h t h3 (by rw [hd]; rfl)
    refine ⟨t.call :: l, hl, ?_⟩
    intro i c hic
    cases i with
    | zero =>
      simp only [List.getElem?_cons_zero, Option.some.injEq] at hic
      refine ⟨d + 1, h, h3, t, hic, rfl, rfl, hd, ?_⟩
      rw [hl]
      simp
    | succ j =>
      simp only [List.getElem?_cons_succ] at hic
      rw [deliver] at hd
      cases hh1 : hop { vals := h.vals, voids := h.voids, calls := h.calls ++ [t.call] } t with
      | none => simp [hh1] at hd
      | some hp =>
        cases hp with
        | stop h2 =>
          simp only [hh1] at hd
          obtain ⟨_, c1, _⟩ := mark_final h2 t h3 (by rw [hd]; rfl)
          obtain ⟨c3, _⟩ := hop_stop_keeps _ t h2 hh1
          rw [c1, c3] at hl
          have hnil : l = [] := by simpa using hl
          subst hnil
          simp at hic
        | next t1 =>
          simp only [hh1] at hd
          cases hr : deliver d
              { vals := h.vals, voids := h.voids, calls := h.calls ++ [t.call] } t1 with
          | ok u h2 =>
            simp only [hr] at hd
            obtain ⟨_, c1, _⟩ := mark_final h2 t h3 (by rw [hd]; rfl)
            obtain ⟨l1, hl1, hvis⟩ := ih
              { vals := h.vals, voids := h.voids, calls := h.calls ++ [t.call] } t1 h2 hr
            rw [c1, hl1] at hl
            have hll : l1 = l := by simpa using hl
            subst hll
            obtain ⟨d2, hm, hm3, tm, e1, e2, e3, e4, e5⟩ := hvis j c hic
            refine ⟨d2, hm, hm3, tm, e1, e2, e3, e4, ?_⟩
            simp only [List.length_cons]
            omega
          | throw e h2 => simp [hr] at hd
          | hang => simp [hr] at hd
          | fault => simp [hr] at hd

/-- A returning `deliver` invokes the `m_get` of the tunnel it starts from exactly once:
the trace grows by that invocation followed by invocations on other tunnels only. -/
theorem deliver_no_revisit {T : Type} (depth : Nat) (h : Heap T) (t : Target T)
    (h3 : Heap T) (hd : deliver depth h t = Result.ok () h3) :
    ∃ rest, h3.calls = h.calls ++ t.call :: rest ∧
      ∀ c, c ∈ rest → c.node ≠ t.call.node := by
  obtain ⟨_, _, l, hl⟩ := deliver_final depth h t h3 (by rw [hd]; rfl)
  obtain ⟨l1, hl1, hvis⟩ := deliver_visits depth h t h3 hd
  have hll : l1 = t.call :: l := by
    rw [hl1] at hl
    simpa using hl
  subst hll
  refine ⟨l, hl, ?_⟩
  intro c hc hnode
  obtain ⟨j, hj⟩ := List.getElem?_of_mem hc
  obtain ⟨d1, hm, hm3, tm, e1, e2, e3, e4, e5⟩ := hvis (j + 1) c (by simpa using hj)
  obtain ⟨n, n1, n2⟩ := deliver_trace_length depth d1 h hm t tm h3 hm3 e2 e3
    (by rw [e1]; exact hnode) hd e4
  rw [hl] at n1
  simp only [List.length_append, List.length_cons] at n1 e5
  omega

/-- A returning `set` on a `_tunnel<T>`: the body of `m_get` left a heap `h2` that keeps
the tunnels, and the result is `h2` with `m_store_set = true` written to the tunnel. -/
theorem tunnel_set_inv {T : Type} (depth : Nat) (h : Heap T) (a : Nat) (v : T)
    (h3 : Heap T) (c : _tunnel T) (hc : h.vals[a]? = some c)
    (hs : _tunnel.set (depth + 1) h a v = Result.ok () h3) :
    ∃ (h2 : Heap T) (c2 : _tunnel T), set_keeps h h2 ∧ h2.vals[a]? = some c2 ∧
      h3.calls = h2.calls ∧ h3.voids = h2.voids ∧
      (c.m_get = Getter.store → c2.m_store = v) ∧
      h3.vals = h2.vals.set a { m_store := c2.m_store, m_get := c2.m_get,
                                m_redir_enabled := c2.m_redir_enabled,
                                m_store_set := true } := by
  rw [(set_eq_deliver (depth + 1)).1, deliver] at hs
  have hlt := lookup_lt hc
  cases hh1 : hop
      { vals := h.vals, voids := h.voids, calls := h.calls ++ [(Target.val a v).call] }
      (Target.val a v) with
  | none => simp [hh1] at hs
  | some hp =>
    cases hp with
    | stop h2 =>
      simp only [hh1] at hs
      obtain ⟨_, k⟩ := hop_stop_keeps _ _ h2 hh1
      simp only [hop, hc] at hh1
      cases hg : c.m_get <;> simp [hg] at hh1
      subst hh1
      simp only [mark, mark_val] at hs
      simp [hlt] at hs
      subst hs
      exact ⟨_,
        { m_store := v, m_get := Getter.store, m_redir_enabled := c.m_redir_enabled,
          m_store_set := c.m_store_set },
        k, by simp [hlt], rfl, rfl, fun _ => rfl, by simp⟩
    | next t1 =>
      simp only [hh1] at hs
      have hne : c.m_get ≠ Getter.store := by
        intro hg
        simp [hop, hc, hg] at hh1
      cases hr : deliver depth
          { vals := h.vals, voids := h.voids, calls := h.calls ++ [(Target.val a v).call] }
          t1 with
      | ok u h2 =>
        simp only [hr] at hs
        obtain ⟨_, k, _⟩ := deliver_final depth _ t1 h2 (by rw [hr]; rfl)
        obtain ⟨c2, hc2, _, _, _⟩ := k.1 a c hc
        simp only [mark, mark_val, hc2, Result.ok.injEq, true_and] at hs
        subst hs
        exact ⟨h2, c2, k, hc2, rfl, rfl, fun hg => absurd hg hne, rfl⟩
      | throw e h2 => simp [hr] at hs
      | hang => simp [hr] at hs
      | fault => simp [hr] at hs

/-- When the body of `m_get` of the `_tunnel<T>` at `a` returned with heap `h2`, `set`
returns `h2` with `m_store_set = true` written to the tunnel, whose other fields are the
ones it had before the call. -/
theorem tunnel_set_after_body {T : Type} (h h2 : Heap T) (a : Nat) (c : _tunnel T)
    (hc : h.vals[a]? = some c) (hne : c.m_get ≠ Getter.store) (k : set_keeps h h2) :
    mark_val h2 a = Result.ok ()
      { vals := h2.vals.set a { m_store := c.m_store, m_get := c.m_get,
                                m_redir_enabled := c.m_redir_enabled,
                                m_store_set := true },
        voids := h2.voids, calls := h2.calls } := by
  obtain ⟨c2, hc2, g, r, s⟩ := k.1 a c hc
  simp only [mark_val, hc2, g, r, s hne]

/-- C14: invariant I3, store versus forward, for `set(v)` on the `_tunnel<T>` at `a`.
(1) With the default store function `set` returns, the trace grows by the single
invocation of `m_get` with `v`, the tunnel stores `v` and is marked set.
(2)-(4) With a redirect installed by `get_future` or `then`, whenever the `set` on the
next tunnel returns (with `v`, with `f v`, or with no value for a no-payload next tunnel),
`set` returns: the trace is the invocation of this tunnel with `v` followed by the
invocation of the next tunnel, and this tunnel keeps its stored value, its redirect and
its flag `m_redir_enabled` and is marked set.
(5) Whenever `set` returns, the `m_get` of this tunnel was invoked exactly once, with
`v`, and the tunnel is marked set with `m_get` and `m_redir_enabled` unchanged. -/
theorem set_store_versus_forward {T : Type} (h : Heap T) (a : Nat) (c : _tunnel T)
    (hc : h.vals[a]? = some c) (v : T) (depth : Nat) :
    (c.m_get = Getter.store →
      _tunnel.set (depth + 1) h a v = Result.ok ()
        { vals := h.vals.set a { m_store := v, m_get := c.m_get,
                                 m_redir_enabled := c.m_redir_enabled,
                                 m_store_set := true },
          voids := h.voids, calls := h.calls ++ [Call.val a v] }) ∧
    (∀ (b : Nat) (h2 : Heap T), c.m_get = Getter.forward b →
      _tunnel.set depth
          { vals := h.vals, voids := h.voids, calls := h.calls ++ [Call.val a v] } b v =
        Result.ok () h2 →
      ∃ h3 rest, _tunnel.set (depth + 1) h a v = Result.ok () h3 ∧
        h3.calls = h.calls ++ Call.val a v :: Call.val b v :: rest ∧
        h3.vals = h2.vals.set a { m_store := c.m_store, m_get := c.m_get,
                                  m_redir_enabled := c.m_redir_enabled,
                                  m_store_set := true } ∧
        h3.voids = h2.voids) ∧
    (∀ (b : Nat) (f : T → T) (h2 : Heap T), c.m_get = Getter.then_val b f →
      _tunnel.set depth
          { vals := h.vals, voids := h.voids, calls := h.calls ++ [Call.val a v] } b (f v) =
        Result.ok () h2 →
      ∃ h3 rest, _tunnel.set (depth + 1) h a v = Result.ok () h3 ∧
        h3.calls = h.calls ++ Call.val a v :: Call.val b (f v) :: rest ∧
        h3.vals = h2.vals.set a { m_store := c.m_store, m_get := c.m_get,
                                  m_redir_enabled := c.m_redir_enabled,
                                  m_store_set := true } ∧
        h3.voids = h2.voids) ∧
    (∀ (b : Nat) (f : T → Unit) (h2 : Heap T), c.m_get = Getter.then_void b f →
      _tunnel_void.set depth
          { vals := h.vals, voids := h.voids, calls := h.calls ++ [Call.val a v] } b =
        Result.ok () h2 →
      ∃ h3 rest, _tunnel.set (depth + 1) h a v = Result.ok () h3 ∧
        h3.calls = h.calls ++ Call.val a v :: Call.void b :: rest ∧
        h3.vals = h2.vals.set a { m_store := c.m_store, m_get := c.m_get,
                                  m_redir_enabled := c.m_redir_enabled,
                                  m_store_set := true } ∧
        h3.voids = h2.voids) ∧
    (∀ (h3 : Heap T), _tunnel.set (depth + 1) h a v = Result.ok () h3 →
      (∃ rest, h3.calls = h.calls ++ Call.val a v :: rest ∧
        ∀ w, Call.val a w ∉ rest) ∧
      ∃ c3, h3.vals[a]? = some c3 ∧ c3.m_store_set = true ∧ c3.m_get = c.m_get ∧
        c3.m_redir_enabled = c.m_redir_enabled ∧
        (c.m_get = Getter.store → c3.m_store = v) ∧
        (c.m_get ≠ Getter.store → c3.m_store = c.m_store)) := by
  have hlt := lookup_lt hc
  refine ⟨?_, ?_, ?_, ?_, ?_⟩
  · intro hg
    simp [_tunnel.set, hc, hg, mark_val, hlt]
  · intro b h2 hg hn
    obtain ⟨_, k, l, hl⟩ := deliver_final depth
      { vals := h.vals, voids := h.voids, calls := h.calls ++ [Call.val a v] }
      (Target.val b v) h2 (by rw [← (set_eq_deliver depth).1, hn]; rfl)
    have hm := tunnel_set_after_body h h2 a c hc (by rw [hg]; simp) k
    refine ⟨
      { vals := h2.vals.set a { m_store := c.m_store, m_get := c.m_get,
                                m_redir_enabled := c.m_redir_enabled,
                                m_store_set := true },
        voids := h2.voids, calls := h2.calls }, l, ?_, ?_, rfl, rfl⟩
    · rw [_tunnel.set]
      simp only [hc, hg, hn]
      simpa only [hg] using hm
    · simp [hl, Target.call]
  · intro b f h2 hg hn
    obtain ⟨_, k, l, hl⟩ := deliver_final depth
      { vals := h.vals, voids := h.voids, calls := h.calls ++ [Call.val a v] }
      (Target.val b (f v)) h2 (by rw [← (set_eq_deliver depth).1, hn]; rfl)
    have hm := tunnel_set_after_body h h2 a c hc (by rw [hg]; simp) k
    refine ⟨
      { vals := h2.vals.set a { m_store := c.m_store, m_get := c.m_get,
                                m_redir_enabled := c.m_redir_enabled,
                                m_store_set := true },
        voids := h2.voids, calls := h2.calls }, l, ?_, ?_, rfl, rfl⟩
    · rw [_tunnel.set]
      simp only [hc, hg, hn]
      simpa only [hg] using hm
    · simp [hl, Target.call]
  · intro b f h2 hg hn
    obtain ⟨_, k, l, hl⟩ := deliver_final depth
      { vals := h.vals, voids := h.voids, calls := h.calls ++ [Call.val a v] }
      (Target.void b) h2 (by rw [← (set_eq_deliver depth).2, hn]; rfl)
    have hm := tunnel_set_after_body h h2 a c hc (by rw [hg]; simp) k
    refine ⟨
      { vals := h2.vals.set a { m_store := c.m_store, m_get := c.m_get,
                                m_redir_enabled := c.m_redir_enabled,
                                m_store_set := true },
        voids := h2.voids, calls := h2.calls }, l, ?_, ?_, rfl, rfl⟩
    · rw [_tunnel.set]
      simp only [hc, hg, hn]
      simpa only [hg] using hm
    · simp [hl, Target.call]
  · intro h3 hs
    obtain ⟨h2, c2, k, hc2, _, _, hst, evals⟩ := tunnel_set_inv depth h a v h3 c hc hs
    obtain ⟨rest, hrest, hno⟩ := deliver_no_revisit (depth + 1) h (Target.val a v) h3
      (by rw [← (set_eq_deliver (depth + 1)).1]; exact hs)
    obtain ⟨c1, hc1, g, r, st⟩ := k.1 a c hc
    rw [hc2] at hc1
    cases hc1
    refine ⟨⟨rest, hrest, fun w hw => hno _ hw rfl⟩,
      { m_store := c2.m_store, m_get := c2.m_get, m_redir_enabled := c2.m_redir_enabled,
        m_store_set := true }, ?_, rfl, g, r, hst, st⟩
    rw [evals]
    simp [lookup_lt hc2]

/-- `latch_kept` is reflexive. -/
theorem latch_kept_refl {T : Type} (h : Heap T) : latch_kept h h :=
  ⟨fun _ c hc hr => ⟨c, hc, hr⟩, fun _ c hc hr => ⟨c, hc, hr⟩⟩

/-- `latch_kept` is transitive. -/
theorem latch_kept_trans {T : Type} {h1 h2 h3 : Heap T} (k12 : latch_kept h1 h2)
    (k23 : latch_kept h2 h3) : latch_kept h1 h3 := by
  constructor
  · intro x c hc hr
    obtain ⟨c1, hc1, r1⟩ := k12.1 x c hc hr
    exact k23.1 x c1 hc1 r1
  · intro x c hc hr
    obtain ⟨c1, hc1, r1⟩ := k12.2 x c hc hr
    exact k23.2 x c1 hc1 r1

/-- A heap that keeps its tunnels keeps the redirect latches. -/
theorem latch_kept_of_set_keeps {T : Type} {h h1 : Heap T} (k : set_keeps h h1) :
    latch_kept h h1 := by
  constructor
  · intro x c hc hr
    obtain ⟨c1, hc1, _, r1, _⟩ := k.1 x c hc
    exact ⟨c1, hc1, r1.trans hr⟩
  · intro x c hc hr
    obtain ⟨c1, hc1, _, r1⟩ := k.2 x c hc
    exact ⟨c1, hc1, r1.trans hr⟩

/-- Appending tunnels and overwriting one tunnel by a tunnel whose flag is `true`, or is
the flag of the tunnel it replaces, keeps every flag that was `true`. -/
theorem flag_kept_set_append {α : Type} (p : α → Bool) (l extra : List α) (a : Nat)
    (c1 : α) (h1 : p c1 = true ∨ ∃ c, l[a]? = some c ∧ p c1 = p c) (x : Nat) (c : α)
    (hx : l[x]? = some c) (hp : p c = true) :
    ∃ c2, ((l ++ extra).set a c1)[x]? = some c2 ∧ p c2 = true := by
  have hlt := lookup_lt hx
  by_cases hxa : a = x
  · subst hxa
    refine ⟨c1, by simp [List.getElem?_set, List.length_append]; omega, ?_⟩
    rcases h1 with h1 | ⟨c0, hc0, e⟩
    · exact h1
    · rw [hx] at hc0
      cases hc0
      rw [e, hp]
  · refine ⟨c, ?_, hp⟩
    rw [List.getElem?_set_ne hxa, List.getElem?_append_left hlt, hx]

/-- Appending tunnels keeps every tunnel. -/
theorem flag_kept_append {α : Type} (p : α → Bool) (l extra : List α) (x : Nat) (c : α)
    (hx : l[x]? = some c) (hp : p c = true) :
    ∃ c2, (l ++ extra)[x]? = some c2 ∧ p c2 = true :=
  ⟨c, by rw [List.getElem?_append_left (lookup_lt hx), hx], hp⟩

/-- The heap left by `_tunnel<T>::wait()`, returning or throwing, is the one it started
from. -/
theorem tunnel_wait_final {T : Type} (polls : Nat) (h h1 : Heap T) (a : Nat)
    (hw : (_tunnel.wait polls h a).final = some h1) : h1 = h := by
  induction polls with
  | zero => simp [_tunnel.wait, Result.final] at hw
  | succ n ih =>
    simp only [_tunnel.wait] at hw
    cases hc : h.vals[a]? with
    | none => simp [hc, Result.final] at hw
    | some c =>
      simp only [hc] at hw
      cases hr : c.m_redir_enabled with
      | true =>
        simp [hr, Result.final] at hw
        exact hw.symm
      | false =>
        cases hs : c.m_store_set with
        | true =>
          simp [hr, hs, Result.final] at hw
          exact hw.symm
        | false =>
          simp [hr, hs] at hw
          exact ih hw

/-- The heap left by `_tunnel<void>::wait()`, returning or throwing, is the one it
started from. -/
theorem tunnel_void_wait_final {T : Type} (polls : Nat) (h h1 : Heap T) (a : Nat)
    (hw : (_tunnel_void.wait polls h a).final = some h1) : h1 = h := by
  induction polls with
  | zero => simp [_tunnel_void.wait, Result.final] at hw
  | succ n ih =>
    simp only [_tunnel_void.wait] at hw
    cases hc : h.voids[a]? with
    | none => simp [hc, Result.final] at hw
    | some c =>
      simp only [hc] at hw
      cases hr : c.m_redir_enabled with
      | true =>
        simp [hr, Result.final] at hw
        exact hw.symm
      | false =>
        cases hs : c.m_store_set with
        | true =>
          simp [hr, hs, Result.final] at hw
          exact hw.symm
        | false =>
          simp [hr, hs] at hw
          exact ih hw

/-- The heap left by `_tunnel<T>::wait_for(dt)` is the one it started from. -/
theorem tunnel_wait_for_final {T : Type} (h h1 : Heap T) (a : Nat) (dt : Int)
    (hw : (_tunnel.wait_for h a dt).final = some h1) : h1 = h := by
  simp only [_tunnel.wait_for] at hw
  cases hc : h.vals[a]? with
  | none => simp [hc, Result.final] at hw
  | some c =>
    cases hr : c.m_redir_enabled <;> simp [hc, hr, Result.final] at hw <;> exact hw.symm

/-- The heap left by `_tunnel<void>::wait_for(dt)` is the one it started from. -/
theorem tunnel_void_wait_for_final {T : Type} (h h1 : Heap T) (a : Nat) (dt : Int)
    (hw : (_tunnel_void.wait_for h a dt).final = some h1) : h1 = h := by
  simp only [_tunnel_void.wait_for] at hw
  cases hc : h.voids[a]? with
  | none => simp [hc, Result.final] at hw
  | some c =>
    cases hr : c.m_redir_enabled <;> simp [hc, hr, Result.final] at hw <;> exact hw.symm

/-- Reading a field of the `_tunnel<T>` after a wait: the heap left is the heap left by
the wait. -/
theorem read_after_wait_final {T α : Type} (r : Result Unit T) (a : Nat)
    (g : _tunnel T → α) (h h1 : Heap T) (hr : ∀ h2, r.final = some h2 → h2 = h)
    (hf : (match r with
            | Result.ok _ h2 =>
              match h2.vals[a]? with
              | none => Result.fault
              | some c => Result.ok (g c) h2
            | Result.throw e h2 => Result.throw e h2
            | Result.hang => Result.hang
            | Result.fault => Result.fault).final = some h1) : h1 = h := by
  cases r with
  | ok u h2 =>
    have := hr h2 rfl
    subst this
    simp only at hf
    cases hc : h2.vals[a]? with
    | none => simp [hc, Result.final] at hf
    | some c =>
      simp [hc, Result.final] at hf
      exact hf.symm
  | throw e h2 =>
    have := hr h2 rfl
    subst this
    simp [Result.final] at hf
    exact hf.symm
  | hang => simp [Result.final] at hf
  | fault => simp [Result.final] at hf

/-- Reading a field of the `_tunnel<void>` after a wait: the heap left is the heap left
by the wait. -/
theorem read_after_void_wait_final {T α : Type} (r : Result Unit T) (a : Nat)
    (g : _tunnel_void T → α) (h h1 : Heap T) (hr : ∀ h2, r.final = some h2 → h2 = h)
    (hf : (match r with
            | Result.ok _ h2 =>
              match h2.voids[a]? with
              | none => Result.fault
              | some c => Result.ok (g c) h2
            | Result.throw e h2 => Result.throw e h2
            | Result.hang => Result.hang
            | Result.fault => Result.fault).final = some h1) : h1 = h := by
  cases r with
  | ok u h2 =>
    have := hr h2 rfl
    subst this
    simp only at hf
    cases hc : h2.voids[a]? with
    | none => simp [hc, Result.final] at hf
    | some c =>
      simp [hc, Result.final] at hf
      exact hf.symm
  | throw e h2 =>
    have := hr h2 rfl
    subst this
    simp [Result.final] at hf
    exact hf.symm
  | hang => simp [Result.final] at hf
  | fault => simp [Result.final] at hf

/-- One call of the interface, returning or throwing, keeps the redirect latches. -/
theorem op_run_latch_kept {T : Type} [Payload T] (op : Op T) (depth polls : Nat)
    (h h1 : Heap T) (hrun : op.run depth polls h = some h1) : latch_kept h h1 := by
  cases op with
  | set_value P v =>
    simp only [Op.run, future.set_value, (set_eq_deliver depth).1] at hrun
    exact latch_kept_of_set_keeps (deliver_final depth h _ h1 hrun).2.1
  | set_value_void P =>
    simp only [Op.run, future_void.set_value, (set_eq_deliver depth).2] at hrun
    exact latch_kept_of_set_keeps (deliver_final depth h _ h1 hrun).2.1
  | get_future P =>
    simp only [Op.run, future.get_future] at hrun
    cases hc : h.vals[P.m_next]? with
    | none => simp [hc, Result.final] at hrun
    | some c =>
      cases hr : c.m_redir_enabled with
      | true =>
        simp only [hc, hr, if_true, Result.final, Option.some.injEq] at hrun
        subst hrun
        exact latch_kept_refl h
      | false =>
        simp only [hc, hr, Bool.false_eq_true, if_false, Result.final, Option.some.injEq,
          future.new] at hrun
        subst hrun
        exact ⟨fun x cx hx hp => flag_kept_set_append (fun c => c.m_redir_enabled) h.vals _
          P.m_next _ (Or.inl rfl) x cx hx hp, fun x cx hx hp => ⟨cx, hx, hp⟩⟩
  | get_future_void P =>
    simp only [Op.run, future_void.get_future] at hrun
    cases hc : h.voids[P.m_next]? with
    | none => simp [hc, Result.final] at hrun
    | some c =>
      cases hr : c.m_redir_enabled with
      | true =>
        simp only [hc, hr, if_true, Result.final, Option.some.injEq] at hrun
        subst hrun
        exact latch_kept_refl h
      | false =>
        simp only [hc, hr, Bool.false_eq_true, if_false, Result.final, Option.some.injEq,
          future_void.new] at hrun
        subst hrun
        exact ⟨fun x cx hx hp => ⟨cx, hx, hp⟩,
          fun x cx hx hp => flag_kept_set_append (fun c => c.m_redir_enabled) h.voids _
            P.m_next _ (Or.inl rfl) x cx hx hp⟩
  | then_val F f =>
    simp only [Op.run, future.then_val, future.new] at hrun
    cases hc : (h.vals ++ [_tunnel.fresh])[F.m_next]? with
    | none => simp [hc, Result.final] at hrun
    | some c =>
      simp only [hc, Result.final, Option.some.injEq] at hrun
      subst hrun
      exact ⟨fun x cx hx hp => flag_kept_set_append (fun c => c.m_redir_enabled) h.vals _
        F.m_next _ (Or.inl rfl) x cx hx hp, fun x cx hx hp => ⟨cx, hx, hp⟩⟩
  | then_void F f =>
    simp only [Op.run, future.then_void, future_void.new] at hrun
    cases hc : h.vals[F.m_next]? with
    | none => simp [hc, Result.final] at hrun
    | some c =>
      simp only [hc, Result.final, Option.some.injEq] at hrun
      subst hrun
      refine ⟨fun x cx hx hp => ?_,
        fun x cx hx hp => flag_kept_append (fun c => c.m_redir_enabled) h.voids _ x cx hx hp⟩
      simpa using flag_kept_set_append (fun c : _tunnel T => c.m_redir_enabled) h.vals []
        F.m_next (c.redirect_nolock (Getter.then_void h.voids.length f)) (Or.inl rfl)
        x cx hx hp
  | void_then_val F f =>
    simp only [Op.run, future_void.then_val, future.new] at hrun
    cases hc : h.voids[F.m_next]? with
    | none => simp [hc, Result.final] at hrun
    | some c =>
      simp only [hc, Result.final, Option.some.injEq] at hrun
      subst hrun
      refine ⟨fun x cx hx hp => flag_kept_append (fun c => c.m_redir_enabled) h.vals _ x cx
        hx hp, fun x cx hx hp => ?_⟩
      simpa using flag_kept_set_append (fun c : _tunnel_void T => c.m_redir_enabled)
        h.voids [] F.m_next (c.redirect_nolock (VoidGetter.then_val h.vals.length f))
        (Or.inl rfl) x cx hx hp
  | void_then_void F f =>
    simp only [Op.run, future_void.then_void, future_void.new] at hrun
    cases hc : (h.voids ++ [_tunnel_void.fresh])[F.m_next]? with
    | none => simp [hc, Result.final] at hrun
    | some c =>
      simp only [hc, Result.final, Option.some.injEq] at hrun
      subst hrun
      exact ⟨fun x cx hx hp => ⟨cx, hx, hp⟩,
        fun x cx hx hp => flag_kept_set_append (fun c => c.m_redir_enabled) h.voids _
          F.m_next _ (Or.inl rfl) x cx hx hp⟩
  | wait F =>
    simp only [Op.run, future.wait] at hrun
    have := read_after_wait_final _ F.m_next (fun c => c.m_store_set) h h1
      (fun h2 hw => tunnel_wait_final polls h h2 F.m_next hw) hrun
    subst this
    exact latch_kept_refl h1
  | wait_void F =>
    simp only [Op.run, future_void.wait] at hrun
    have := read_after_void_wait_final _ F.m_next (fun c => c.m_store_set) h h1
      (fun h2 hw => tunnel_void_wait_final polls h h2 F.m_next hw) hrun
    subst this
    exact latch_kept_refl h1
  | wait_dt F dt =>
    simp only [Op.run, future.wait_dt] at hrun
    have := read_after_wait_final _ F.m_next (fun c => c.m_store_set) h h1
      (fun h2 hw => by
        by_cases hdt : dt > 0
        · simp only [hdt, if_true] at hw
          exact tunnel_wait_for_final h h2 F.m_next dt hw
        · simp only [hdt, if_false, Result.final, Option.some.injEq] at hw
          exact hw.symm) hrun
    subst this
    exact latch_kept_refl h1
  | wait_dt_void F dt =>
    simp only [Op.run, future_void.wait_dt] at hrun
    have := read_after_void_wait_final _ F.m_next (fun c => c.m_store_set) h h1
      (fun h2 hw => by
        by_cases hdt : dt > 0
        · simp only [hdt, if_true] at hw
          exact tunnel_void_wait_for_final h h2 F.m_next dt hw
        · simp only [hdt, if_false, Result.final, Option.some.injEq] at hw
          exact hw.symm) hrun
    subst this
    exact latch_kept_refl h1
  | get F =>
    simp only [Op.run, future.get] at hrun
    have := read_after_wait_final _ F.m_next (fun c => c.m_store) h h1
      (fun h2 hw => tunnel_wait_final polls h h2 F.m_next hw) hrun
    subst this
    exact latch_kept_refl h1
  | get_void F =>
    simp only [Op.run, future_void.get] at hrun
    have := tunnel_void_wait_final polls h h1 F.m_next hrun
    subst this
    exact latch_kept_refl h1
  | get_take F =>
    simp only [Op.run, future.get_take] at hrun
    cases hw : _tunnel.wait polls h F.m_next with
    | ok u h2 =>
      have := tunnel_wait_final polls h h2 F.m_next (by rw [hw]; rfl)
      subst this
      simp only [hw] at hrun
      cases hc : h2.vals[F.m_next]? with
      | none => simp [hc, Result.final] at hrun
      | some c =>
        simp only [hc, Result.final, Option.some.injEq] at hrun
        subst hrun
        refine ⟨fun x cx hx hp => ?_, fun x cx hx hp => ⟨cx, hx, hp⟩⟩
        simpa using flag_kept_set_append (fun c : _tunnel T => c.m_redir_enabled) h2.vals []
          F.m_next
          { m_store := Payload.moved_from c.m_store, m_get := c.m_get,
            m_redir_enabled := c.m_redir_enabled, m_store_set := false }
          (Or.inr ⟨c, hc, rfl⟩) x cx hx hp
    | throw e h2 =>
      have := tunnel_wait_final polls h h2 F.m_next (by rw [hw]; rfl)
      subst this
      simp only [hw, Result.final, Option.some.injEq] at hrun
      subst hrun
      exact latch_kept_refl h2
    | hang => simp [hw, Result.final] at hrun
    | fault => simp [hw, Result.final] at hrun
  | get_take_void F =>
    simp only [Op.run, future_void.get_take] at hrun
    cases hw : _tunnel_void.wait polls h F.m_next with
    | ok u h2 =>
      have := tunnel_void_wait_final polls h h2 F.m_next (by rw [hw]; rfl)
      subst this
      simp only [hw] at hrun
      cases hc : h2.voids[F.m_next]? with
      | none => simp [hc, Result.final] at hrun
      | some c =>
        simp only [hc, Result.final, Option.some.injEq] at hrun
        subst hrun
        refine ⟨fun x cx hx hp => ⟨cx, hx, hp⟩, fun x cx hx hp => ?_⟩
        simpa using flag_kept_set_append (fun c : _tunnel_void T => c.m_redir_enabled)
          h2.voids [] F.m_next
          { m_get := c.m_get, m_redir_enabled := c.m_redir_enabled, m_store_set := false }
          (Or.inr ⟨c, hc, rfl⟩) x cx hx hp
    | throw e h2 =>
      have := tunnel_void_wait_final polls h h2 F.m_next (by rw [hw]; rfl)
      subst this
      simp only [hw, Result.final, Option.some.injEq] at hrun
      subst hrun
      exact latch_kept_refl h2
    | hang => simp [hw, Result.final] at hrun
    | fault => simp [hw, Result.final] at hrun

/-- A sequence of calls of the interface keeps the redirect latches. -/
theorem run_all_latch_kept {T : Type} [Payload T] (ops : List (Nat × Nat × Op T)) :
    ∀ (h h1 : Heap T), run_all ops h = some h1 → latch_kept h h1 := by
  induction ops with
  | nil =>
    intro h h1 hrun
    simp only [run_all, Option.some.injEq] at hrun
    subst hrun
    exact latch_kept_refl h
  | cons o ops ih =>
    intro h h1 hrun
    obtain ⟨depth, polls, op⟩ := o
    simp only [run_all] at hrun
    cases hr : op.run depth polls h with
    | none => simp [hr] at hrun
    | some h2 =>
      simp only [hr] at hrun
      exact latch_kept_trans (op_run_latch_kept op depth polls h h2 hr) (ih h2 h1 hrun)

/-- Witness for C14: the cell of the promise after `P.get_future()` on the empty heap;
`set(9)` forwards 9 to the tunnel of the future and keeps the promise cell's own store. -/
theorem set_store_versus_forward_witness :
    ({ vals := [{ m_store := 0, m_get := Getter.forward 1, m_redir_enabled := true,
                  m_store_set := false }, _tunnel.fresh],
       voids := [], calls := [] } : Heap Nat).vals[0]? =
      some { m_store := 0, m_get := Getter.forward 1, m_redir_enabled := true,
             m_store_set := false } ∧
    ∃ h3 rest, _tunnel.set 2
        ({ vals := [{ m_store := 0, m_get := Getter.forward 1, m_redir_enabled := true,
                      m_store_set := false }, _tunnel.fresh],
           voids := [], calls := [] } : Heap Nat) 0 9 = Result.ok () h3 ∧
      h3.calls = [] ++ Call.val 0 9 :: Call.val 1 9 :: rest ∧
      h3.vals =
        ([{ m_store := 0, m_get := Getter.forward 1, m_redir_enabled := true,
            m_store_set := false },
          { m_store := 9, m_get := Getter.store, m_redir_enabled := false,
            m_store_set := true }] : List (_tunnel Nat)).set 0
          { m_store := 0, m_get := Getter.forward 1, m_redir_enabled := true,
            m_store_set := true } ∧
      h3.voids = [] :=
  ⟨rfl, (set_store_versus_forward
      ({ vals := [{ m_store := 0, m_get := Getter.forward 1, m_redir_enabled := true,
                    m_store_set := false }, _tunnel.fresh],
         voids := [], calls := [] } : Heap Nat) 0
      { m_store := 0, m_get := Getter.forward 1, m_redir_enabled := true,
        m_store_set := false } rfl 9 1).2.1 1
      { vals := [{ m_store := 0, m_get := Getter.forward 1, m_redir_enabled := true,
                   m_store_set := false },
                 { m_store := 9, m_get := Getter.store, m_redir_enabled := false,
                   m_store_set := true }],
        voids := [], calls := [Call.val 0 9, Call.val 1 9] } rfl rfl⟩

/-- C16: the redirect latch is monotonic. (1) One call of `set_value`, `get_future`,
`then`, `wait()`, `wait(dt)`, `get()` or `get_take()`, for a payload type or for `void`,
whether it returns or throws, leaves every tunnel that had `m_redir_enabled` with
`m_redir_enabled`.  (2) So does every sequence of such calls; and in the heap it leaves,
on a handle whose tunnel had `m_redir_enabled` at the start, `wait()` throws at the first
poll and returns for no number of polls. -/
theorem redirect_latch_is_monotonic {T : Type} [Payload T] (h : Heap T) :
    (∀ (op : Op T) (depth polls : Nat) (h1 : Heap T),
      op.run depth polls h = some h1 → latch_kept h h1) ∧
    (∀ (ops : List (Nat × Nat × Op T)) (h1 : Heap T), run_all ops h = some h1 →
      latch_kept h h1 ∧
      (∀ (F : future) (c : _tunnel T), h.vals[F.m_next]? = some c →
        c.m_redir_enabled = true →
          (∀ polls, future.wait (polls + 1) h1 F = Result.throw redir_error h1) ∧
          (∀ (n : Nat) (b : Bool) (h2 : Heap T), future.wait n h1 F ≠ Result.ok b h2)) ∧
      (∀ (F : future_void) (c : _tunnel_void T), h.voids[F.m_next]? = some c →
        c.m_redir_enabled = true →
          (∀ polls, future_void.wait (polls + 1) h1 F = Result.throw redir_error h1) ∧
          (∀ (n : Nat) (b : Bool) (h2 : Heap T),
            future_void.wait n h1 F ≠ Result.ok b h2))) := by
  refine ⟨fun op depth polls h1 hrun => op_run_latch_kept op depth polls h h1 hrun, ?_⟩
  intro ops h1 hrun
  have k := run_all_latch_kept ops h h1 hrun
  refine ⟨k, ?_, ?_⟩
  · intro F c hc hr
    obtain ⟨c1, hc1, r1⟩ := k.1 F.m_next c hc hr
    constructor
    · intro polls
      simp [future.wait, tunnel_wait_redirected h1 F.m_next c1 hc1 r1]
    · intro n b h2 hw
      simp only [future.wait] at hw
      cases hr2 : _tunnel.wait n h1 F.m_next with
      | ok u h3 =>
        obtain ⟨_, c2, hc2, _, r2⟩ := tunnel_wait_ok_inv n h1 h3 F.m_next hr2
        rw [hc1] at hc2
        cases hc2
        rw [r1] at r2
        cases r2
      | throw e h3 => simp [hr2] at hw
      | hang => simp [hr2] at hw
      | fault => simp [hr2] at hw
  · intro F c hc hr
    obtain ⟨c1, hc1, r1⟩ := k.2 F.m_next c hc hr
    constructor
    · intro polls
      simp [future_void.wait, tunnel_void_wait_redirected h1 F.m_next c1 hc1 r1]
    · intro n b h2 hw
      simp only [future_void.wait] at hw
      cases hr2 : _tunnel_void.wait n h1 F.m_next with
      | ok u h3 =>
        obtain ⟨_, c2, hc2, _, r2⟩ := tunnel_void_wait_ok_inv n h1 h3 F.m_next hr2
        rw [hc1] at hc2
        cases hc2
        rw [r1] at r2
        cases r2
      | throw e h3 => simp [hr2] at hw
      | hang => simp [hr2] at hw
      | fault => simp [hr2] at hw

/-- Witness for C16: from the heap left by `P.get_future()` on the empty heap, the calls
`P.set_value(5)`, `F.get()`, `F.get_take()`, `F.then(x + 1)` and a second, throwing
`P.get_future()` leave a heap in which the cell of `P` is still redirected: `P.wait()`
throws. -/
theorem redirect_latch_is_monotonic_witness :
    run_all
        [(2, 1, Op.set_value { m_next := 0 } 5), (0, 1, Op.get { m_next := 1 }),
         (0, 1, Op.get_take { m_next := 1 }),
         (0, 1, Op.then_val { m_next := 1 } (fun x : Nat => x + 1)),
         (0, 1, Op.get_future { m_next := 0 })]
        ({ vals := [{ m_store := 0, m_get := Getter.forward 1, m_redir_enabled := true,
                      m_store_set := false }, _tunnel.fresh],
           voids := [], calls := [] } : Heap Nat) =
      some
        { vals := [{ m_store := 0, m_get := Getter.forward 1, m_redir_enabled := true,
                     m_store_set := true },
                   { m_store := 5, m_get := Getter.then_val 2 (fun x : Nat => x + 1),
                     m_redir_enabled := true, m_store_set := false },
                   _tunnel.fresh],
          voids := [], calls := [Call.val 0 5, Call.val 1 5] } ∧
    future.wait 1
        ({ vals := [{ m_store := 0, m_get := Getter.forward 1, m_redir_enabled := true,
                      m_store_set := true },
                    { m_store := 5, m_get := Getter.then_val 2 (fun x : Nat => x + 1),
                      m_redir_enabled := true, m_store_set := false },
                    _tunnel.fresh],
           voids := [], calls := [Call.val 0 5, Call.val 1 5] } : Heap Nat)
        { m_next := 0 } =
      Result.throw redir_error
        { vals := [{ m_store := 0, m_get := Getter.forward 1, m_redir_enabled := true,
                     m_store_set := true },
                   { m_store := 5, m_get := Getter.then_val 2 (fun x : Nat => x + 1),
                     m_redir_enabled := true, m_store_set := false },
                   _tunnel.fresh],
          voids := [], calls := [Call.val 0 5, Call.val 1 5] } :=
  ⟨rfl, ((redirect_latch_is_monotonic
      ({ vals := [{ m_store := 0, m_get := Getter.forward 1, m_redir_enabled := true,
                    m_store_set := false }, _tunnel.fresh],
         voids := [], calls := [] } : Heap Nat)).2
      [(2, 1, Op.set_value { m_next := 0 } 5), (0, 1, Op.get { m_next := 1 }),
       (0, 1, Op.get_take { m_next := 1 }),
       (0, 1, Op.then_val { m_next := 1 } (fun x : Nat => x + 1)),
       (0, 1, Op.get_future { m_next := 0 })]
      { vals := [{ m_store := 0, m_get := Getter.forward 1, m_redir_enabled := true,
                   m_store_set := true },
                 { m_store := 5, m_get := Getter.then_val 2 (fun x : Nat => x + 1),
                   m_redir_enabled := true, m_store_set := false },
                 _tunnel.fresh],
        voids := [], calls := [Call.val 0 5, Call.val 1 5] } rfl).2.1
      { m_next := 0 }
      { m_store := 0, m_get := Getter.forward 1, m_redir_enabled := true,
        m_store_set := false } rfl rfl |>.1 0⟩

end Lunaris
